import Mathlib

/-!
# DJV media playback engine: embedding of `djvViewApp/Media.cpp`

The private state of `djv::ViewApp::Media` is an explicit record, and every member
function is a function from states to states.  The planar helpers of
`djvAV/AudioData.cpp` and the child ordering of `djvCore/IObject.cpp` are embedded as
functions on lists.  Conventions of the embedding:

* `Frame::Number` is a signed 64 bit integer in the source.  It is embedded as `Int`;
  frame numbers and sequence sizes are taken inside its range, so no frame arithmetic
  wraps.  Readings of `std::chrono::system_clock` are embedded as `Int` clock ticks.
* `size_t` counters are embedded as `Nat`.  The unsigned subtractions of the audio
  callback whose operands are not ordered by construction go through `subSizeT`, which
  wraps the way the machine operation does; `outputSampleCount -= size` follows
  `size = std::min(..., outputSampleCount)` and is a plain subtraction.
* A `ValueSubject<T>` is embedded as the value it holds: `setIfChanged` stores the new
  value and reports whether it differed from the old one.  Its observers belong to the
  user interface and are not part of the engine.
* Every read of `std::chrono::system_clock::now()` inside one call is the `now`
  argument of that call.
* A `std::shared_ptr` that the source tests against null is an `Option`.
* `float` values (volume, real speed) are embedded as rationals; rounding is not
  modelled.
* What the collaborators answer during `Media::_open` (the reader factory, the stream
  descriptions, `RtAudio::openStream`) is the `OpenEnv` argument of that call; a
  raised exception is one of the answers, and the `catch` handlers only log.
-/

namespace djv

/-! ## Frames, sequences, playback enumerations -/

/-- Modelled from the spec: the header declaring `Frame::invalid` is missing; the spec
calls it the sentinel for "no frame".  The least 64 bit integer is used. -/
def Frame.invalid : Int := -(2 ^ 63)

/-- Modelled from the spec: the header declaring `Frame::Sequence` is missing; the spec
describes an ordered finite set of frame numbers whose size is the playable frame
count. -/
structure Frame.Sequence where
  frames : List Int
deriving DecidableEq, Repr

/-- Playable frame count (`Sequence::getSize`). -/
def Frame.Sequence.getSize (q : Frame.Sequence) : Nat := q.frames.length

/-- Playback state (`enum class Playback`). -/
inductive Playback where
  | Stop
  | Forward
  | Reverse
deriving DecidableEq, Repr

/-- Boundary policy (`enum class PlaybackMode`). -/
inductive PlaybackMode where
  | Once
  | Loop
  | PingPong
deriving DecidableEq, Repr

/-- Decoder direction hint (`AV::IO::Direction`). -/
inductive Direction where
  | Forward
  | Reverse
deriving DecidableEq, Repr

/-- Modelled from the spec: the header declaring `Time::Speed` is missing; the spec
describes a rational number of frames per second given by numerator and denominator. -/
structure Speed where
  num : Int
  den : Int
deriving DecidableEq, Repr

/-! ## Decoded frames and the reader -/

/-- Identity of a decoded image object (the target of a `shared_ptr<Image>`). -/
abbrev Image := Nat

/-- Decoded video frame (`AV::IO::VideoFrame`): the image handle may be null. -/
structure VideoFrame where
  frame : Int
  image : Option Image
deriving DecidableEq, Repr

/-- One byte of PCM data. -/
abbrev Byte := Nat

/-- Sample formats used by `AudioData.cpp` and `Media::_open` (`AV::Audio::Type`). -/
inductive AudioType where
  | None
  | U8
  | S16
  | S32
  | F32
deriving DecidableEq, Repr

/-- Modelled from the spec: the header defining `Audio::getByteCount` is missing; the
width of one sample follows the name of its type. -/
def getByteCount : AudioType → Nat
  | .None => 0
  | .U8 => 1
  | .S16 => 2
  | .S32 => 4
  | .F32 => 4

/-- Audio format descriptor (`AV::Audio::DataInfo`, fields as in its constructor). -/
structure DataInfo where
  channelCount : Nat
  type : AudioType
  sampleRate : Nat
deriving DecidableEq, Repr

/-- Modelled from the spec: the header defining `DataInfo::isValid` is missing; a
descriptor is taken as valid when it names a sample type. -/
def DataInfo.isValid (i : DataInfo) : Bool := i.type != AudioType.None

/-- Block of decoded PCM data (`AV::Audio::Data`): `_info`, `_sampleCount`, `_data`. -/
structure AudioData where
  info : DataInfo
  sampleCount : Nat
  data : List Byte
deriving DecidableEq, Repr

/-- Decoded audio frame (`AV::IO::AudioFrame`).  The callback dereferences the block
without a test, so the handle is embedded as the block itself. -/
structure AudioFrame where
  audio : AudioData
deriving DecidableEq, Repr

/-- Modelled from the spec: the reader interface `AV::IO::IRead` is missing from the
sources; the spec gives it a video queue, an audio queue and `seek(frame, direction)`,
which does not purge the queues.  The seek requests received are logged, newest first. -/
structure IRead where
  videoQueue : List VideoFrame
  audioQueue : List AudioFrame
  seeks : List (Int × Direction)
deriving DecidableEq, Repr

/-- Decoder seek request (`IRead::seek`). -/
def IRead.seek (r : IRead) (value : Int) (direction : Direction) : IRead :=
  { r with seeks := (value, direction) :: r.seeks }

/-- Audio device object (`RtAudio`).  Kept are whether its stream is open and whether
it runs; the calls on it sit in `try` blocks whose handlers write to the log and
nothing else. -/
structure RtAudio where
  streamOpen : Bool
  running : Bool
deriving DecidableEq, Repr

/-- Stop the device stream and rewind its time base (`abortStream`, `setStreamTime(0.0)`). -/
def RtAudio.abortStream (a : RtAudio) : RtAudio := { a with running := false }

/-- Start the device stream (`startStream`): a stream that is not open does not start,
the exception being caught where the call is made. -/
def RtAudio.startStream (a : RtAudio) : RtAudio := { a with running := a.streamOpen }

/-- The calls `closeStream()` and `openStream(...)` of `Media::_open`; `opens` tells
whether `openStream` succeeds.  When it raises, the handler logs and the device object
stays with a closed stream. -/
def RtAudio.reopenStream (_a : RtAudio) (opens : Bool) : RtAudio :=
  { streamOpen := opens, running := false }

/-- Video stream description (`AV::IO::VideoInfo`): the members that `Media::_open`
reads. -/
structure VideoInfo where
  speed : Speed
  sequence : Frame.Sequence
deriving DecidableEq, Repr

/-- Stream descriptions of an opened source (`AV::IO::Info`): one entry per video
layer and per audio stream. -/
structure IOInfo where
  video : List VideoInfo
  audio : List DataInfo
deriving DecidableEq, Repr

/-- Answer of `io->read(fileInfo, options)` in `Media::_open`: the call raises, or it
returns a reader whose `getInfo().get()` yields the stream descriptions or raises. -/
inductive ReadResult where
  | throws
  | reader (r : IRead) (info : Option IOInfo)
deriving DecidableEq, Repr

/-- What the collaborators answer during one `Media::_open`: the result of creating
the reader, the value of a default constructed `Time::Speed` (its header is missing),
and whether `RtAudio::openStream` succeeds. -/
structure OpenEnv where
  read : ReadResult
  speed : Speed
  streamOpens : Bool
deriving DecidableEq, Repr

/-! ## The private state of `Media` -/

/-- Private state of the playback engine (`Media::Private`). -/
structure Media where
  speed : Speed
  defaultSpeed : Speed
  realSpeed : Rat
  playEveryFrame : Bool
  sequence : Frame.Sequence
  currentFrame : Int
  currentImage : Option Image
  playback : Playback
  playbackMode : PlaybackMode
  inOutPointsEnabled : Bool
  inPoint : Int
  outPoint : Int
  volume : Rat
  mute : Bool
  threadCount : Nat
  layer : Nat
  info : IOInfo
  videoInfo : VideoInfo
  read : Option IRead
  ioDirection : Direction
  rtAudio : Option RtAudio
  audioInfo : DataInfo
  audioData : Option AudioData
  audioDataOffset : Nat
  audioDataTotal : Nat
  audioDataTimeOffset : Int
  frameOffset : Int
  startTime : Int
  realSpeedTime : Int
  realSpeedFrameCount : Nat
  playbackTimer : Bool
  realSpeedTimer : Bool
deriving DecidableEq, Repr

/-- State built by `Media::_init` before the source is opened, with the member
initialisers of `Media::Private` and the arguments of the `create` calls.  Values the
sources do not show (the default speed) are zero.  The example states below are
updates of this state. -/
def Media.initial : Media where
  speed := { num := 0, den := 0 }
  defaultSpeed := { num := 0, den := 0 }
  realSpeed := 0
  playEveryFrame := false
  sequence := { frames := [] }
  currentFrame := 0
  currentImage := none
  playback := Playback.Stop
  playbackMode := PlaybackMode.Loop
  inOutPointsEnabled := false
  inPoint := Frame.invalid
  outPoint := Frame.invalid
  volume := 1
  mute := false
  threadCount := 4
  layer := 0
  info := { video := [], audio := [] }
  videoInfo := { speed := { num := 0, den := 0 }, sequence := { frames := [] } }
  read := none
  ioDirection := Direction.Forward
  rtAudio := none
  audioInfo := { channelCount := 0, type := AudioType.None, sampleRate := 0 }
  audioData := none
  audioDataOffset := 0
  audioDataTotal := 0
  audioDataTimeOffset := 0
  frameOffset := 0
  startTime := 0
  realSpeedTime := 0
  realSpeedFrameCount := 0
  playbackTimer := false
  realSpeedTimer := false

/-- A sequence of `n` frames numbered from zero. -/
def Frame.Sequence.ofSize (n : Nat) : Frame.Sequence :=
  { frames := (List.range n).map Int.ofNat }

/-! ## Seek controller and playback state machine -/

/-- Embedding of `Media::_seek`. -/
def Media._seek (s : Media) (value : Int) (now : Int) : Media :=
  { s with
    read := s.read.map fun r => r.seek value s.ioDirection
    audioData := none
    audioDataOffset := 0
    audioDataTotal := 0
    audioDataTimeOffset := now
    frameOffset := s.currentFrame
    startTime := now
    realSpeedTime := now
    realSpeedFrameCount := 0
    rtAudio := s.rtAudio.map RtAudio.abortStream }

/-- Embedding of `Media::_playbackUpdate`.  The `Forward` case falls through into the
`Reverse` case with `forward = true`. -/
def Media._playbackUpdate (s : Media) (now : Int) : Media :=
  match s.playback with
  | Playback.Stop =>
    let s1 := { s with
      rtAudio := s.rtAudio.map RtAudio.abortStream
      playbackTimer := false
      realSpeedTimer := false }
    s1._seek s1.currentFrame now
  | playback =>
    let forward : Bool := playback == Playback.Forward
    let s1 := { s with
      ioDirection := if forward then Direction.Forward else Direction.Reverse }
    let s2 := s1._seek s1.currentFrame now
    { s2 with
      audioData := none
      audioDataOffset := 0
      audioDataTotal := 0
      audioDataTimeOffset := now
      frameOffset := s2.currentFrame
      startTime := now
      realSpeedTime := now
      realSpeedFrameCount := 0
      rtAudio := s2.rtAudio.map RtAudio.startStream
      playbackTimer := true
      realSpeedTimer := true }

/-- Embedding of `Media::setPlayback`. -/
def Media.setPlayback (s : Media) (value : Playback) (now : Int) : Media :=
  if s.playback = value then s
  else ({ s with playback := value })._playbackUpdate now

/-- The upper bound `end` that `Media::setCurrentFrame` and `Media::_playbackTick`
compute: the out point when in/out points are enabled, else the last frame. -/
def Media.rangeEnd (s : Media) : Int :=
  if s.inOutPointsEnabled then s.outPoint else (s.sequence.getSize : Int) - 1

/-- The lower bound `start` that `Media::setCurrentFrame` and `Media::_playbackTick`
compute: the in point when in/out points are enabled, else zero. -/
def Media.rangeStart (s : Media) : Int :=
  if s.inOutPointsEnabled then s.inPoint else 0

/-- The value `tmp` that `Media::setCurrentFrame` stores for a request `value`.  The
source also assigns `start`, and never reads it: both tests are against the literal
zero. -/
def Media.wrapFrame (s : Media) (value : Int) : Int :=
  let tmp := value
  let tmp := if tmp > s.rangeEnd then 0 else tmp
  if tmp < 0 then s.rangeEnd else tmp

/-- Embedding of `Media::setCurrentFrame`. -/
def Media.setCurrentFrame (s : Media) (value : Int) (now : Int) : Media :=
  let tmp := s.wrapFrame value
  if s.currentFrame = tmp then s
  else
    let s1 := { s with currentFrame := tmp }
    let s2 := s1.setPlayback Playback.Stop now
    s2._seek s2.currentFrame now

/-- Embedding of `Media::_open`.  When creating the reader raises, the handler logs and
nothing of the `try` block has run; when `getInfo().get()` raises, only the reader has
been stored.  Otherwise the stream descriptions, the speed and the sequence are stored
and the device stream is reopened.  In every case `_seek(currentFrame)` follows.  The
timers started here republish the cached frame ranges and the queue counts of the
reader, which the record does not hold. -/
def Media._open (s : Media) (env : OpenEnv) (now : Int) : Media :=
  let s1 : Media :=
    match env.read with
    | ReadResult.throws => s
    | ReadResult.reader r none => { s with read := some r }
    | ReadResult.reader r (some info) =>
      let speed := match info.video with
        | v :: _ => v.speed
        | [] => env.speed
      let sequence : Frame.Sequence := match info.video with
        | v :: _ => v.sequence
        | [] => { frames := [] }
      { s with
        read := some r
        info := info
        videoInfo := match info.video with
          | v :: _ => v
          | [] => s.videoInfo
        audioInfo := match info.audio with
          | a :: _ => a
          | [] => s.audioInfo
        speed := speed
        defaultSpeed := speed
        sequence := sequence
        rtAudio := s.rtAudio.map fun a => a.reopenStream env.streamOpens }
  s1._seek s1.currentFrame now

/-- Embedding of `Media::reload`. -/
def Media.reload (s : Media) (env : OpenEnv) (now : Int) : Media :=
  s._open env now

/-- Embedding of `Media::_init`: the member subjects take their initial values, the
device object is created unless its constructor raises (`rtAudioCreated`), and the
source is opened. -/
def Media._init (rtAudioCreated : Bool) (env : OpenEnv) (now : Int) : Media :=
  let s : Media :=
    { Media.initial with
      rtAudio := if rtAudioCreated then some { streamOpen := false, running := false }
        else none }
  s._open env now

/-! ## Playback tick -/

/-- Clock readings of one tick.  The candidate frame of `Media::_playbackTick` comes out
of floating point arithmetic on `system_clock` readings; its integer results are the
inputs of the embedding.  `audioAdvance` is the distance from `frameOffset` of the
audio anchored value `frameOffset + Time::scale(audioDataTotal, 1 / sampleRate,
speed.swap()) + delta * speed` after its conversion to a frame number, and `elapsed`
is `static_cast<Frame::Number>(delta.count() * speed.toFloat())` of the wall clock
branch. -/
structure ClockSample where
  audioAdvance : Int
  elapsed : Int
deriving DecidableEq, Repr

/-- Embedding of `Media::_hasAudio`. -/
def Media._hasAudio (s : Media) : Bool :=
  s.audioInfo.isValid && s.rtAudio.isSome

/-- The candidate frame that `Media::_playbackTick` derives from the clock, for the
playback state `playback` read at the top of the tick. -/
def Media.clockFrame (s : Media) (playback : Playback) (clk : ClockSample) : Int :=
  if playback = Playback.Forward ∧ s._hasAudio = true then
    s.frameOffset + clk.audioAdvance
  else
    match playback with
    | Playback.Forward => s.frameOffset + clk.elapsed
    | Playback.Reverse => s.frameOffset - clk.elapsed
    | Playback.Stop => Frame.invalid

/-- The boundary branch of `Media::_playbackTick`, entered when the candidate frame
has reached the bound in the playing direction.  It returns the state after the calls
of the `switch` on the playback mode together with the local `frame`. -/
def Media.boundary (s : Media) (now : Int) : Media × Int :=
  let start := s.rangeStart
  let end_ := s.rangeEnd
  match s.playbackMode with
  | PlaybackMode.Once =>
    let frame :=
      match s.playback with
      | Playback.Forward => end_
      | Playback.Reverse => start
      | Playback.Stop => Frame.invalid
    (((s.setPlayback Playback.Stop now).setCurrentFrame frame now), frame)
  | PlaybackMode.Loop =>
    let playback := s.playback
    let frame :=
      match playback with
      | Playback.Forward => start
      | Playback.Reverse => end_
      | Playback.Stop => Frame.invalid
    ((((s.setPlayback Playback.Stop now).setCurrentFrame frame now).setPlayback playback now),
      frame)
  | PlaybackMode.PingPong =>
    let playback := s.playback
    let frame :=
      match playback with
      | Playback.Forward => end_
      | Playback.Reverse => start
      | Playback.Stop => Frame.invalid
    ((((s.setPlayback Playback.Stop now).setCurrentFrame frame now).setPlayback
      (if playback = Playback.Forward then Playback.Reverse else Playback.Forward) now),
      frame)

/-- Embedding of `Media::_playbackTick`: nothing happens when stopped; otherwise the
candidate frame is computed, the boundary policy is applied when the candidate has
reached `end` going forward or `start` going in reverse, and the local `frame` is
stored with `setIfChanged`. -/
def Media._playbackTick (s : Media) (clk : ClockSample) (now : Int) : Media :=
  match s.playback with
  | Playback.Stop => s
  | playback =>
    let frame := s.clockFrame playback clk
    let start := s.rangeStart
    let end_ := s.rangeEnd
    if (playback = Playback.Forward ∧ frame ≥ end_) ∨
        (playback = Playback.Reverse ∧ frame ≤ start) then
      let r := s.boundary now
      { r.1 with currentFrame := r.2 }
    else
      { s with currentFrame := frame }

/-! ## Video queue update -/

/-- The `while` loop of `Media::_queueUpdate`: pop the frames at the head of the queue
that the current frame has passed, counting each pop.  Returns the remaining queue and
the number of frames popped. -/
def popPassed (forward : Bool) (currentFrame : Int) :
    List VideoFrame → List VideoFrame × Nat
  | [] => ([], 0)
  | f :: q =>
    if (if forward then f.frame < currentFrame else f.frame > currentFrame) then
      let r := popPassed forward currentFrame q
      (r.1, r.2 + 1)
    else (f :: q, 0)

/-- Embedding of `Media::_queueUpdate`. -/
def Media._queueUpdate (s : Media) : Media :=
  match s.read with
  | none => s
  | some r =>
    let forward : Bool := s.playback == Playback.Forward
    let currentFrame := s.currentFrame
    let popped := popPassed forward currentFrame r.videoQueue
    let image : Option Image :=
      match popped.1 with
      | [] => none
      | f :: _ => f.image
    let s1 := { s with
      read := some { r with videoQueue := popped.1 }
      realSpeedFrameCount := s.realSpeedFrameCount + popped.2 }
    match image with
    | none => s1
    | some i => { s1 with currentImage := some i }

/-! ## Audio callback -/

/-- Subtraction of two `size_t` values: it wraps modulo `2 ^ 64` when the second
operand is the larger one. -/
def subSizeT (a b : Nat) : Nat :=
  if b ≤ a then a - b else a + 2 ^ 64 - b

/-- Output buffer after `memcpy(buffer + p, src, n)`. -/
def memcpy (buffer : List Byte) (p : Nat) (src : List Byte) (n : Nat) : List Byte :=
  buffer.take p ++ src.take n ++ buffer.drop (p + n)

/-- Output buffer after `memset(buffer + p, 0, n)`. -/
def memset0 (buffer : List Byte) (p : Nat) (n : Nat) : List Byte :=
  buffer.take p ++ List.replicate n 0 ++ buffer.drop (p + n)

/-- The loop of `Media::_rtAudioCallback` that runs under the reader mutex: while the
queue is not empty and `sampleCount < outputSampleCount`, move the front block of the
audio queue to `frames`.  Returns `frames` and the remaining queue. -/
def drainAudioQueue (outputSampleCount : Nat) :
    List AudioFrame → Nat → List AudioFrame × List AudioFrame
  | [], _ => ([], [])
  | frame :: queue, sampleCount =>
    if sampleCount < outputSampleCount then
      let r := drainAudioQueue outputSampleCount queue (sampleCount + frame.audio.sampleCount)
      (frame :: r.1, r.2)
    else ([], frame :: queue)

/-- Size in bytes of one sample frame of the stream, the `sampleByteCount` of
`Media::_rtAudioCallback`. -/
def Media.sampleByteCount (s : Media) : Nat :=
  s.audioInfo.channelCount * getByteCount s.audioInfo.type

/-- The value of `sampleCount` when `Media::_rtAudioCallback` reaches the queue: the
sample frames left in the carryover block, when there is one
(`sampleCount += audioData->getSampleCount() - audioDataOffset`). -/
def carrySampleCount (audioData : Option AudioData) (audioDataOffset : Nat) : Nat :=
  match audioData with
  | some d => subSizeT d.sampleCount audioDataOffset
  | none => 0

/-- Variables that the copy phases of `Media::_rtAudioCallback` update: the carryover
block and the accumulators of `Media::Private`, the output buffer, the write position
`p` as a byte offset into it, and the local `outputSampleCount`. -/
structure AudioCopy where
  audioData : Option AudioData
  audioDataOffset : Nat
  audioDataTotal : Nat
  buffer : List Byte
  p : Nat
  outputSampleCount : Nat
deriving DecidableEq, Repr

/-- The `if (media->_p->audioData)` block of `Media::_rtAudioCallback`: copy what fits
of the unconsumed part of the carryover block, and drop the block once its offset has
reached its sample count. -/
def copyCarryover (sampleByteCount : Nat) (c : AudioCopy) : AudioCopy :=
  match c.audioData with
  | none => c
  | some d =>
    let size := min (subSizeT d.sampleCount c.audioDataOffset) c.outputSampleCount
    let buffer :=
      memcpy c.buffer c.p (d.data.drop (c.audioDataOffset * sampleByteCount))
        (size * sampleByteCount)
    let audioDataOffset := c.audioDataOffset + size
    let c1 : AudioCopy :=
      { audioData := some d
        audioDataOffset := audioDataOffset
        audioDataTotal := c.audioDataTotal + size
        buffer := buffer
        p := c.p + size * sampleByteCount
        outputSampleCount := c.outputSampleCount - size }
    if audioDataOffset ≥ d.sampleCount then
      { c1 with audioData := none, audioDataOffset := 0 }
    else c1

/-- Body of the `for (const auto& i : frames)` loop of `Media::_rtAudioCallback`. -/
def copyFrame (sampleByteCount : Nat) (c : AudioCopy) (i : AudioFrame) : AudioCopy :=
  let size := min i.audio.sampleCount c.outputSampleCount
  { audioData := some i.audio
    audioDataOffset := size
    audioDataTotal := c.audioDataTotal + size
    buffer := memcpy c.buffer c.p i.audio.data (size * sampleByteCount)
    p := c.p + size * sampleByteCount
    outputSampleCount := c.outputSampleCount - size }

/-- Embedding of `Media::_rtAudioCallback`, with `outputBuffer` the content of the
device buffer on entry; the result is the new state and the content of the buffer on
return, or `none` when there is no reader to take the mutex and the queue from. -/
def Media._rtAudioCallback (s : Media) (outputBuffer : List Byte) (nFrames : Nat)
    (now : Int) : Option (Media × List Byte) :=
  match s.read with
  | none => none
  | some r =>
    let outputSampleCount := nFrames
    let sampleByteCount := s.sampleByteCount
    let sampleCount := carrySampleCount s.audioData s.audioDataOffset
    let drained := drainAudioQueue outputSampleCount r.audioQueue sampleCount
    let frames := drained.1
    let c0 : AudioCopy :=
      { audioData := s.audioData
        audioDataOffset := s.audioDataOffset
        audioDataTotal := s.audioDataTotal
        buffer := outputBuffer
        p := 0
        outputSampleCount := outputSampleCount }
    let c1 := copyCarryover sampleByteCount c0
    let c2 := frames.foldl (copyFrame sampleByteCount) c1
    let zeroCount := subSizeT (nFrames * sampleByteCount) c2.p
    let buffer := if zeroCount ≠ 0 then memset0 c2.buffer c2.p zeroCount else c2.buffer
    some
      ({ s with
          read := some { r with audioQueue := drained.2 }
          audioData := c2.audioData
          audioDataOffset := c2.audioDataOffset
          audioDataTotal := c2.audioDataTotal
          audioDataTimeOffset :=
            if s.audioData.isSome ∨ frames ≠ [] then now else s.audioDataTimeOffset },
        buffer)

/-! ## Further control operations -/

/-- Embedding of `Media::setSpeed`. -/
def Media.setSpeed (s : Media) (value : Speed) (now : Int) : Media :=
  if s.speed = value then s
  else
    { s with
      speed := value
      frameOffset := s.currentFrame
      realSpeedFrameCount := 0
      startTime := now
      realSpeedTime := now }

/-- Embedding of `Media::setPlaybackMode`. -/
def Media.setPlaybackMode (s : Media) (value : PlaybackMode) : Media :=
  { s with playbackMode := value }

/-- Embedding of `Media::start`. -/
def Media.start (s : Media) (now : Int) : Media :=
  s.setCurrentFrame 0 now

/-- Embedding of `Media::end`: the last frame of the sequence, or frame 0 for an empty
sequence. -/
def Media.end_ (s : Media) (now : Int) : Media :=
  let size := s.sequence.getSize
  let frame : Int := if size > 0 then ((size - 1 : Nat) : Int) else 0
  s.setCurrentFrame frame now

/-- Embedding of `Media::nextFrame`. -/
def Media.nextFrame (s : Media) (value : Nat) (now : Int) : Media :=
  let frame := s.currentFrame
  s.setCurrentFrame (frame + (value : Int)) now

/-- Embedding of `Media::prevFrame`. -/
def Media.prevFrame (s : Media) (value : Nat) (now : Int) : Media :=
  let frame := s.currentFrame
  s.setCurrentFrame (frame - (value : Int)) now

/-- Embedding of `Media::_volumeUpdate`: with audio it computes the effective volume
into a local variable that nothing reads, and it writes nothing. -/
def Media._volumeUpdate (s : Media) : Media :=
  if s._hasAudio then
    let _volume : Rat := if !s.mute then s.volume else 0
    s
  else s

/-- Embedding of `Media::setVolume`, the volume being a rational in place of a float;
`Math::clamp(value, 0.f, 1.f)` bounds the value to `[0, 1]`. -/
def Media.setVolume (s : Media) (value : Rat) : Media :=
  let clamped : Rat := min (max value 0) 1
  if s.volume = clamped then s
  else ({ s with volume := clamped })._volumeUpdate

/-- Embedding of `Media::setMute`. -/
def Media.setMute (s : Media) (value : Bool) : Media :=
  if s.mute = value then s
  else ({ s with mute := value })._volumeUpdate

/-- Embedding of the callback of the real speed timer started in
`Media::_playbackUpdate`.  `delta.count()` is the time since `realSpeedTime` in
seconds, `ticksPerSecond` being the resolution of `system_clock`; the float quotient
is embedded as the quotient of rationals, rounding aside. -/
def Media.realSpeedTimerCallback (s : Media) (ticksPerSecond : Nat) (now : Int) : Media :=
  let delta : Rat := ((now - s.realSpeedTime : Int) : Rat) / (ticksPerSecond : Rat)
  { s with
    realSpeed := if delta ≠ 0 then (s.realSpeedFrameCount : Rat) / delta else 0
    realSpeedTime := now
    realSpeedFrameCount := 0 }

/-- The variables of `Media::_rtAudioCallback` when its copy loops are done, before the
zero fill: `p` is the number of bytes copied into the output buffer. -/
def Media.audioCopy (s : Media) (r : IRead) (outputBuffer : List Byte) (nFrames : Nat) :
    AudioCopy :=
  (drainAudioQueue nFrames r.audioQueue
      (carrySampleCount s.audioData s.audioDataOffset)).1.foldl
    (copyFrame s.sampleByteCount)
    (copyCarryover s.sampleByteCount
      { audioData := s.audioData
        audioDataOffset := s.audioDataOffset
        audioDataTotal := s.audioDataTotal
        buffer := outputBuffer
        p := 0
        outputSampleCount := nFrames })

/-- The predicate of the frame range invariant: in/out points are disabled, the
sequence has `N` frames, and the current frame and `frameOffset` lie in `[0, N-1]`. -/
def Media.frameInvariant (s : Media) (N : Nat) : Prop :=
  s.inOutPointsEnabled = false ∧ s.sequence.getSize = N ∧
    0 ≤ s.currentFrame ∧ s.currentFrame ≤ (N : Int) - 1 ∧
    0 ≤ s.frameOffset ∧ s.frameOffset ≤ (N : Int) - 1

instance (s : Media) (N : Nat) : Decidable (s.frameInvariant N) := by
  unfold Media.frameInvariant
  exact inferInstance

/-! ## Planar audio helpers of `djvAV/AudioData.cpp` -/

/-- The assignment `*outP = *inP` of the planar helpers, on arrays embedded as lists:
the element read at an index of the input array is stored at index `j` of the output
array.  A read outside the input array stores nothing. -/
def storeAt {α : Type} (out : List α) (j : Nat) (x : Option α) : List α :=
  match x with
  | some v => out.set j v
  | none => out

/-- Embedding of the template `_planarInterleave(value, out, channelCount, size)`: for
each channel `c` and each index `i` of its plane, `out[c + i * channelCount]` receives
`value[c * planeSize + i]`.  `out` is the content of the output array on entry and the
result is its content on return. -/
def _planarInterleave {α : Type} (value out : List α) (channelCount size : Nat) : List α :=
  let planeSize := size / channelCount
  (List.range channelCount).foldl
    (fun out c =>
      (List.range planeSize).foldl
        (fun out i => storeAt out (c + i * channelCount) value[c * planeSize + i]?) out)
    out

/-- Embedding of the template `_planarDeinterleave(value, out, channelCount, size)`:
for each channel `c` and each index `i` of its plane, `out[c * planeSize + i]` receives
`value[c + i * channelCount]`. -/
def _planarDeinterleave {α : Type} (value out : List α) (channelCount size : Nat) : List α :=
  let planeSize := size / channelCount
  (List.range channelCount).foldl
    (fun out c =>
      (List.range planeSize).foldl
        (fun out i => storeAt out (c * planeSize + i) value[c + i * channelCount]?) out)
    out

/-- Two nested counting loops that copy `value[src a b]` to `out[dst a b]` for `a < A`
and `b < B`: the common shape of the two planar helpers. -/
def copyLoops {α : Type} (value out : List α) (A B : Nat) (dst src : Nat → Nat → Nat) :
    List α :=
  (List.range A).foldl
    (fun out a =>
      (List.range B).foldl (fun out b => storeAt out (dst a b) value[src a b]?) out)
    out

/-! ## Child order of `djvCore/IObject.cpp` -/

/-- Identity of an object (the target of a `shared_ptr<IObject>`). -/
abbrev ObjectId := Nat

/-- The children list of the parent after `IObject::moveToFront` of `object`: the first
occurrence found by `std::find` is erased, if there is one, and the object is pushed
at the back. -/
def IObject.moveToFront (siblings : List ObjectId) (object : ObjectId) : List ObjectId :=
  siblings.erase object ++ [object]

/-- The children list of the parent after `IObject::moveToBack` of `object`: the first
occurrence found by `std::find` is erased, if there is one, and the object is inserted
at the beginning. -/
def IObject.moveToBack (siblings : List ObjectId) (object : ObjectId) : List ObjectId :=
  object :: siblings.erase object

/-! ## Predicates used in the statements -/

/-- Bounds under which the boundary policy is stated: in/out points disabled on a
sequence of at least one frame, or enabled with `0 ≤ inPoint ≤ outPoint`. -/
def Media.validBounds (s : Media) : Prop :=
  (s.inOutPointsEnabled = false ∧ 1 ≤ s.sequence.getSize) ∨
    (s.inOutPointsEnabled = true ∧ 0 ≤ s.inPoint ∧ s.inPoint ≤ s.outPoint)

instance (s : Media) : Decidable s.validBounds := by
  unfold Media.validBounds
  exact inferInstance

/-- Example state of the boundary scenarios: a sequence of ten frames without in/out
points, playing forward from frame 0 in the given mode, the current frame being 8. -/
def Media.tenFrames (mode : PlaybackMode) : Media :=
  { Media.initial with
    sequence := Frame.Sequence.ofSize 10
    currentFrame := 8
    playback := Playback.Forward
    playbackMode := mode
    playbackTimer := true
    realSpeedTimer := true }

/-- Example state of the frame drop scenario: playing forward at current frame
`currentFrame`, image 100 published, with the given video queue. -/
def Media.withVideoQueue (currentFrame : Int) (queue : List VideoFrame) : Media :=
  { Media.initial with
    sequence := Frame.Sequence.ofSize 10
    currentFrame := currentFrame
    currentImage := some 100
    playback := Playback.Forward
    read := some { videoQueue := queue, audioQueue := [], seeks := [] } }

/-- Sample frames of the carryover block that were not consumed yet. -/
def tailCount (audioData : Option AudioData) (audioDataOffset : Nat) : Nat :=
  match audioData with
  | some d => d.sampleCount - audioDataOffset
  | none => 0

/-- Sample frames held by the blocks of an audio queue. -/
def queueCount : List AudioFrame → Nat
  | [] => 0
  | f :: q => f.audio.sampleCount + queueCount q

/-- Bytes of the carryover block that were not consumed yet. -/
def tailBytes (sampleByteCount : Nat) (audioData : Option AudioData)
    (audioDataOffset : Nat) : List Byte :=
  match audioData with
  | some d => d.data.drop (audioDataOffset * sampleByteCount)
  | none => []

/-- Bytes held by the blocks of an audio queue, in queue order. -/
def queueBytes : List AudioFrame → List Byte
  | [] => []
  | f :: q => f.audio.data ++ queueBytes q

/-- Sample frames available to the audio callback: the unconsumed tail of the carryover
block plus all blocks of the audio queue. -/
def Media.available (s : Media) : Nat :=
  tailCount s.audioData s.audioDataOffset +
    match s.read with
    | some r => queueCount r.audioQueue
    | none => 0

/-- Byte stream available to the audio callback: the unconsumed tail of the carryover
block followed by the data of the queued blocks in queue order. -/
def Media.pcmStream (s : Media) : List Byte :=
  tailBytes s.sampleByteCount s.audioData s.audioDataOffset ++
    match s.read with
    | some r => queueBytes r.audioQueue
    | none => []

/-- The carryover offset does not exceed the sample count of the carryover block. -/
def carryoverOK (audioData : Option AudioData) (audioDataOffset : Nat) : Prop :=
  match audioData with
  | some d => audioDataOffset ≤ d.sampleCount
  | none => True

instance (audioData : Option AudioData) (audioDataOffset : Nat) :
    Decidable (carryoverOK audioData audioDataOffset) := by
  unfold carryoverOK
  cases audioData <;> exact inferInstance

/-- The block holds `sampleCount` sample frames of `sampleByteCount` bytes each, as
`Data::_init` allocates for a block in the format of the stream. -/
def blockOK (sampleByteCount : Nat) (d : AudioData) : Prop :=
  d.data.length = d.sampleCount * sampleByteCount

instance (sampleByteCount : Nat) (d : AudioData) : Decidable (blockOK sampleByteCount d) := by
  unfold blockOK
  exact inferInstance

/-- The carryover block, when there is one, is in the format of the stream. -/
def carryBlockOK (sampleByteCount : Nat) (audioData : Option AudioData) : Prop :=
  match audioData with
  | some d => blockOK sampleByteCount d
  | none => True

instance (sampleByteCount : Nat) (audioData : Option AudioData) :
    Decidable (carryBlockOK sampleByteCount audioData) := by
  unfold carryBlockOK
  cases audioData <;> exact inferInstance

/-- Every block of the queue is in the format of the stream. -/
def queueOK (sampleByteCount : Nat) (q : List AudioFrame) : Prop :=
  ∀ f ∈ q, blockOK sampleByteCount f.audio

instance (sampleByteCount : Nat) (q : List AudioFrame) :
    Decidable (queueOK sampleByteCount q) := by
  unfold queueOK
  exact inferInstance

/-- A run of device callbacks with no other activity in between: each call comes with
the content of the device buffer, the requested frame count and the clock reading. -/
def Media.rtAudioCallbacks (s : Media) : List (List Byte × Nat × Int) → Option Media
  | [] => some s
  | call :: calls =>
    match s._rtAudioCallback call.1 call.2.1 call.2.2 with
    | none => none
    | some r => Media.rtAudioCallbacks r.1 calls

/-- Frames requested by a run of device callbacks. -/
def requestedFrames : List (List Byte × Nat × Int) → Nat
  | [] => 0
  | call :: calls => call.2.1 + requestedFrames calls

/-- Example state of the audio scenarios: a stereo 16 bit stream (4 bytes per sample
frame), a carryover block of 3 frames of which 1 is consumed, and two queued blocks of
2 frames and 1 frame. -/
def Media.audioExample : Media :=
  { Media.initial with
    audioInfo := { channelCount := 2, type := AudioType.S16, sampleRate := 48000 }
    audioData := some
      { info := { channelCount := 2, type := AudioType.S16, sampleRate := 48000 }
        sampleCount := 3
        data := [1, 2, 3, 4, 5, 6, 7, 8, 9, 10, 11, 12] }
    audioDataOffset := 1
    audioDataTotal := 1
    read := some
      { videoQueue := []
        audioQueue :=
          [ { audio :=
                { info := { channelCount := 2, type := AudioType.S16, sampleRate := 48000 }
                  sampleCount := 2
                  data := [21, 22, 23, 24, 25, 26, 27, 28] } },
            { audio :=
                { info := { channelCount := 2, type := AudioType.S16, sampleRate := 48000 }
                  sampleCount := 1
                  data := [31, 32, 33, 34] } } ]
        seeks := [] } }

/-- Example state of the silence scenario: the stream of `Media.audioExample` with an
empty audio queue and no carryover block. -/
def Media.silentExample : Media :=
  { Media.initial with
    audioInfo := { channelCount := 2, type := AudioType.S16, sampleRate := 48000 }
    audioDataTotal := 7
    read := some { videoQueue := [], audioQueue := [], seeks := [] } }

/-- Example answer of the collaborators to `Media::_open`: a reader with empty queues
for a source of ten frames at 24 frames per second with one stereo 16 bit audio
stream; `streamOpens` tells whether the device stream opens. -/
def OpenEnv.tenFramesWithAudio (streamOpens : Bool) : OpenEnv :=
  { read := ReadResult.reader { videoQueue := [], audioQueue := [], seeks := [] }
      (some
        { video := [{ speed := { num := 24, den := 1 }, sequence := Frame.Sequence.ofSize 10 }]
          audio := [{ channelCount := 2, type := AudioType.S16, sampleRate := 48000 }] })
    speed := { num := 0, den := 0 }
    streamOpens := streamOpens }

/-- Example answer of the collaborators to `Media::_open`: creating the reader raises. -/
def OpenEnv.failing : OpenEnv :=
  { read := ReadResult.throws, speed := { num := 0, den := 0 }, streamOpens := false }

/-- Example state of the real speed scenario: the ten frame example in `Loop` mode with
twelve frames counted since the clock reading 1000. -/
def Media.realSpeedExample : Media :=
  { Media.tenFrames PlaybackMode.Loop with realSpeedFrameCount := 12, realSpeedTime := 1000 }

/-! ## Projections of the state machine operations -/

section Projections

variable (s : Media) (value : Int) (now : Int)

@[simp] theorem seek_currentFrame : (s._seek value now).currentFrame = s.currentFrame := rfl
@[simp] theorem seek_playback : (s._seek value now).playback = s.playback := rfl
@[simp] theorem seek_playbackMode : (s._seek value now).playbackMode = s.playbackMode := rfl
@[simp] theorem seek_sequence : (s._seek value now).sequence = s.sequence := rfl
@[simp] theorem seek_inOutPointsEnabled :
    (s._seek value now).inOutPointsEnabled = s.inOutPointsEnabled := rfl
@[simp] theorem seek_inPoint : (s._seek value now).inPoint = s.inPoint := rfl
@[simp] theorem seek_outPoint : (s._seek value now).outPoint = s.outPoint := rfl
@[simp] theorem seek_frameOffset : (s._seek value now).frameOffset = s.currentFrame := rfl
@[simp] theorem seek_audioData : (s._seek value now).audioData = none := rfl
@[simp] theorem seek_audioDataOffset : (s._seek value now).audioDataOffset = 0 := rfl
@[simp] theorem seek_audioDataTotal : (s._seek value now).audioDataTotal = 0 := rfl
@[simp] theorem seek_realSpeedFrameCount : (s._seek value now).realSpeedFrameCount = 0 := rfl
@[simp] theorem seek_rangeEnd : (s._seek value now).rangeEnd = s.rangeEnd := rfl
@[simp] theorem seek_rangeStart : (s._seek value now).rangeStart = s.rangeStart := rfl

end Projections

/-- The update that follows a change of the playback state keeps the current frame,
the playback state and mode and the bounds, and anchors `frameOffset` at the current
frame. -/
theorem playbackUpdate_proj (s : Media) (now : Int) :
    (s._playbackUpdate now).currentFrame = s.currentFrame ∧
    (s._playbackUpdate now).playback = s.playback ∧
    (s._playbackUpdate now).playbackMode = s.playbackMode ∧
    (s._playbackUpdate now).rangeStart = s.rangeStart ∧
    (s._playbackUpdate now).rangeEnd = s.rangeEnd ∧
    (s._playbackUpdate now).frameOffset = s.currentFrame := by
  unfold Media._playbackUpdate
  cases h : s.playback <;> simp [h, Media._seek, Media.rangeStart, Media.rangeEnd]

/-- Projections of `setPlayback`: the stored playback state is the requested one, and
the current frame, the mode and the bounds are kept. -/
theorem setPlayback_proj (s : Media) (value : Playback) (now : Int) :
    (s.setPlayback value now).currentFrame = s.currentFrame ∧
    (s.setPlayback value now).playback = value ∧
    (s.setPlayback value now).playbackMode = s.playbackMode ∧
    (s.setPlayback value now).rangeStart = s.rangeStart ∧
    (s.setPlayback value now).rangeEnd = s.rangeEnd := by
  unfold Media.setPlayback
  split
  · next h => simp [h]
  · have h := playbackUpdate_proj { s with playback := value } now
    exact ⟨h.1, h.2.1, h.2.2.1, h.2.2.2.1, h.2.2.2.2.1⟩

/-- A change of the playback state anchors `frameOffset` at the current frame. -/
theorem setPlayback_frameOffset (s : Media) (value : Playback) (now : Int)
    (h : s.playback ≠ value) :
    (s.setPlayback value now).frameOffset = s.currentFrame := by
  unfold Media.setPlayback
  rw [if_neg h]
  exact (playbackUpdate_proj _ now).2.2.2.2.2

/-- The frame stored by `setCurrentFrame` is the wrapped request. -/
theorem setCurrentFrame_currentFrame (s : Media) (value : Int) (now : Int) :
    (s.setCurrentFrame value now).currentFrame = s.wrapFrame value := by
  unfold Media.setCurrentFrame
  by_cases h : s.currentFrame = s.wrapFrame value
  · simp [h]
  · simp [h, (setPlayback_proj _ _ _).1]

/-! ## Wrap invariant of `setCurrentFrame` -/

/-- C1: with in/out points disabled and a sequence of size `N ≥ 1`, the frame stored by
`setCurrentFrame v` lies in `[0, N-1]`; it is `0` when `v > N-1`, `N-1` when `v < 0`
and `v` otherwise, so that requesting `N` stores `0` and requesting `-1` stores `N-1`. -/
theorem setCurrentFrame_wrap_disabled (s : Media) (N : Nat) (v : Int)
    (now : Int) (hN : 1 ≤ N) (hsize : s.sequence.getSize = N)
    (hdis : s.inOutPointsEnabled = false) :
    0 ≤ (s.setCurrentFrame v now).currentFrame ∧
    (s.setCurrentFrame v now).currentFrame ≤ (N : Int) - 1 ∧
    ((N : Int) - 1 < v → (s.setCurrentFrame v now).currentFrame = 0) ∧
    (v < 0 → (s.setCurrentFrame v now).currentFrame = (N : Int) - 1) ∧
    (0 ≤ v → v ≤ (N : Int) - 1 → (s.setCurrentFrame v now).currentFrame = v) ∧
    (s.setCurrentFrame (N : Int) now).currentFrame = 0 ∧
    (s.setCurrentFrame (-1) now).currentFrame = (N : Int) - 1 := by
  have hend : s.rangeEnd = (N : Int) - 1 := by simp [Media.rangeEnd, hdis, hsize]
  have hN0 : (1 : Int) ≤ N := by exact_mod_cast hN
  simp only [setCurrentFrame_currentFrame, Media.wrapFrame, hend]
  refine ⟨?_, ?_, ?_, ?_, ?_, ?_, ?_⟩
  · split_ifs <;> omega
  · split_ifs <;> omega
  · intro h; split_ifs <;> omega
  · intro h; split_ifs <;> omega
  · intro h1 h2; split_ifs <;> omega
  · split_ifs <;> omega
  · split_ifs <;> omega

/-- Witness of C1: a sequence of ten frames, current frame 4, request for frame 10. -/
theorem setCurrentFrame_wrap_disabled_witness :
    (({ Media.initial with sequence := Frame.Sequence.ofSize 10, currentFrame := 4 } :
        Media).setCurrentFrame ((10 : Nat) : Int) 0).currentFrame = 0 :=
  (setCurrentFrame_wrap_disabled
    { Media.initial with sequence := Frame.Sequence.ofSize 10, currentFrame := 4 }
    10 7 0 (by decide) (by decide) rfl).2.2.2.2.2.1

/-- C2, evaluation at the failing input: ten frames, in/out points enabled at 2 and 5,
current frame 3.  A request for frame 6 stores frame 0 and a request for frame 1
stores frame 1; both lie outside `[2, 5]`. -/
theorem setCurrentFrame_inOut_escapes :
    (({ Media.initial with
          sequence := Frame.Sequence.ofSize 10, currentFrame := 3,
          inOutPointsEnabled := true, inPoint := 2, outPoint := 5 } :
        Media).setCurrentFrame 6 0).currentFrame = 0 ∧
    (({ Media.initial with
          sequence := Frame.Sequence.ofSize 10, currentFrame := 3,
          inOutPointsEnabled := true, inPoint := 2, outPoint := 5 } :
        Media).setCurrentFrame 1 0).currentFrame = 1 := by
  constructor <;> decide

/-! ## Boundary policy of the playback tick -/

/-- Under valid bounds the lower bound is not negative and not above the upper one. -/
theorem validBounds_range (s : Media) (h : s.validBounds) :
    0 ≤ s.rangeStart ∧ s.rangeStart ≤ s.rangeEnd := by
  unfold Media.validBounds at h
  unfold Media.rangeStart Media.rangeEnd
  rcases h with ⟨h1, h2⟩ | ⟨h1, h2, h3⟩
  · simp only [h1]
    constructor
    · simp
    · simp only [Bool.false_eq_true, if_false]
      omega
  · simp only [h1, if_true]
    exact ⟨h2, h3⟩

/-- A frame inside `[0, end]` is stored as it is. -/
theorem wrapFrame_of_mem (s : Media) (f : Int) (h0 : 0 ≤ f) (h1 : f ≤ s.rangeEnd) :
    s.wrapFrame f = f := by
  unfold Media.wrapFrame
  simp only
  rw [if_neg (by omega), if_neg (by omega)]

/-- Projections of `setCurrentFrame`: the mode and the bounds are kept, and a stopped
engine stays stopped. -/
theorem setCurrentFrame_proj (s : Media) (value : Int) (now : Int) :
    (s.setCurrentFrame value now).playbackMode = s.playbackMode ∧
    (s.setCurrentFrame value now).rangeStart = s.rangeStart ∧
    (s.setCurrentFrame value now).rangeEnd = s.rangeEnd ∧
    (s.playback = Playback.Stop → (s.setCurrentFrame value now).playback = Playback.Stop) := by
  unfold Media.setCurrentFrame
  by_cases h : s.currentFrame = s.wrapFrame value
  · simp [h]
  · have hp := setPlayback_proj { s with currentFrame := s.wrapFrame value } Playback.Stop now
    simp only [h, if_false, seek_playbackMode, seek_rangeStart, seek_rangeEnd, seek_playback]
    exact ⟨hp.2.2.1, hp.2.2.2.1, hp.2.2.2.2, fun _ => hp.2.1⟩

/-- State reached by the call sequence shared by the three boundary modes: stop, then
set the current frame to a frame `f` inside the bounds.  The engine is stopped at `f`
with the mode and the bounds as before. -/
theorem stop_then_setCurrentFrame (s : Media) (f : Int) (now : Int)
    (h0 : 0 ≤ f) (h1 : f ≤ s.rangeEnd) :
    ((s.setPlayback Playback.Stop now).setCurrentFrame f now).currentFrame = f ∧
    ((s.setPlayback Playback.Stop now).setCurrentFrame f now).playback = Playback.Stop ∧
    ((s.setPlayback Playback.Stop now).setCurrentFrame f now).rangeStart = s.rangeStart ∧
    ((s.setPlayback Playback.Stop now).setCurrentFrame f now).rangeEnd = s.rangeEnd := by
  have ha := setPlayback_proj s Playback.Stop now
  have hb := setCurrentFrame_proj (s.setPlayback Playback.Stop now) f now
  refine ⟨?_, hb.2.2.2 ha.2.1, hb.2.1.trans ha.2.2.2.1, hb.2.2.1.trans ha.2.2.2.2⟩
  rw [setCurrentFrame_currentFrame]
  exact wrapFrame_of_mem _ f h0 (by rw [ha.2.2.2.2]; exact h1)

/-- State reached by the call sequence of the `Loop` and `PingPong` modes: stop, set
the current frame to `f` inside the bounds, then play in direction `p`.  The engine
plays in direction `p` at frame `f`, with `frameOffset` anchored at `f`. -/
theorem stop_set_play (s : Media) (f : Int) (p : Playback) (now : Int)
    (h0 : 0 ≤ f) (h1 : f ≤ s.rangeEnd) (hp : p ≠ Playback.Stop) :
    (((s.setPlayback Playback.Stop now).setCurrentFrame f now).setPlayback p now).currentFrame
      = f ∧
    (((s.setPlayback Playback.Stop now).setCurrentFrame f now).setPlayback p now).playback
      = p ∧
    (((s.setPlayback Playback.Stop now).setCurrentFrame f now).setPlayback p now).frameOffset
      = f := by
  have hb := stop_then_setCurrentFrame s f now h0 h1
  have hc := setPlayback_proj ((s.setPlayback Playback.Stop now).setCurrentFrame f now) p now
  refine ⟨hc.1.trans hb.1, hc.2.1, ?_⟩
  rw [setPlayback_frameOffset _ p now (by rw [hb.2.1]; exact fun h => hp h.symm)]
  exact hb.1

/-- C3: in `Loop` mode with valid bounds, a forward tick whose candidate frame has
reached `end` leaves the engine playing forward at `start`, and a reverse tick whose
candidate frame has reached `start` leaves it playing in reverse at `end`; in both
cases `frameOffset` is the new current frame. -/
theorem playbackTick_loop (s : Media) (clk : ClockSample) (now : Int)
    (hmode : s.playbackMode = PlaybackMode.Loop) (hb : s.validBounds) :
    (s.playback = Playback.Forward → s.rangeEnd ≤ s.clockFrame Playback.Forward clk →
      (s._playbackTick clk now).currentFrame = s.rangeStart ∧
      (s._playbackTick clk now).playback = Playback.Forward ∧
      (s._playbackTick clk now).frameOffset = s.rangeStart) ∧
    (s.playback = Playback.Reverse → s.clockFrame Playback.Reverse clk ≤ s.rangeStart →
      (s._playbackTick clk now).currentFrame = s.rangeEnd ∧
      (s._playbackTick clk now).playback = Playback.Reverse ∧
      (s._playbackTick clk now).frameOffset = s.rangeEnd) := by
  have hr := validBounds_range s hb
  constructor
  · intro hpb hc
    have h := stop_set_play s s.rangeStart Playback.Forward now hr.1 hr.2 (by decide)
    simp only [Media._playbackTick, hpb, Media.boundary, hmode, ge_iff_le, hc, and_self,
      true_or, if_true]
    exact ⟨trivial, h.2.1, h.2.2⟩
  · intro hpb hc
    have h := stop_set_play s s.rangeEnd Playback.Reverse now (by omega) le_rfl (by decide)
    simp only [Media._playbackTick, hpb, Media.boundary, hmode, hc, and_self, or_true,
      if_true]
    exact ⟨trivial, h.2.1, h.2.2⟩

/-- Witness of C3: ten frames, forward, the clock twelve frames past frame 0: the next
frame is 0 and playback stays forward. -/
theorem playbackTick_loop_witness :
    ((Media.tenFrames PlaybackMode.Loop)._playbackTick ⟨0, 12⟩ 1).currentFrame = 0 ∧
    ((Media.tenFrames PlaybackMode.Loop)._playbackTick ⟨0, 12⟩ 1).playback
      = Playback.Forward ∧
    ((Media.tenFrames PlaybackMode.Loop)._playbackTick ⟨0, 12⟩ 1).frameOffset = 0 :=
  (playbackTick_loop (Media.tenFrames PlaybackMode.Loop) ⟨0, 12⟩ 1 rfl (by decide)).1 rfl
    (by decide)

/-- C4: in `PingPong` mode with valid bounds, a forward tick whose candidate frame has
reached `end` leaves the current frame at `end` and the engine playing in reverse, and
a reverse tick whose candidate frame has reached `start` leaves the current frame at
`start` and the engine playing forward. -/
theorem playbackTick_pingPong (s : Media) (clk : ClockSample) (now : Int)
    (hmode : s.playbackMode = PlaybackMode.PingPong) (hb : s.validBounds) :
    (s.playback = Playback.Forward → s.rangeEnd ≤ s.clockFrame Playback.Forward clk →
      (s._playbackTick clk now).currentFrame = s.rangeEnd ∧
      (s._playbackTick clk now).playback = Playback.Reverse) ∧
    (s.playback = Playback.Reverse → s.clockFrame Playback.Reverse clk ≤ s.rangeStart →
      (s._playbackTick clk now).currentFrame = s.rangeStart ∧
      (s._playbackTick clk now).playback = Playback.Forward) := by
  have hr := validBounds_range s hb
  constructor
  · intro hpb hc
    have h := stop_set_play s s.rangeEnd Playback.Reverse now (by omega) le_rfl (by decide)
    simp only [Media._playbackTick, hpb, Media.boundary, hmode, ge_iff_le, hc, and_self,
      true_or, if_true]
    exact ⟨trivial, h.2.1⟩
  · intro hpb hc
    have h := stop_set_play s s.rangeStart Playback.Forward now hr.1 hr.2 (by decide)
    simp only [Media._playbackTick, hpb, Media.boundary, hmode, hc, and_self, or_true,
      if_true]
    exact ⟨trivial, h.2.1⟩

/-- Witness of C4: ten frames, forward, the clock twelve frames past frame 0: the next
frame is 9 and playback flips to reverse. -/
theorem playbackTick_pingPong_witness :
    ((Media.tenFrames PlaybackMode.PingPong)._playbackTick ⟨0, 12⟩ 1).currentFrame = 9 ∧
    ((Media.tenFrames PlaybackMode.PingPong)._playbackTick ⟨0, 12⟩ 1).playback
      = Playback.Reverse :=
  (playbackTick_pingPong (Media.tenFrames PlaybackMode.PingPong) ⟨0, 12⟩ 1 rfl
    (by decide)).1 rfl (by decide)

/-- C5: in `Once` mode with valid bounds, a forward tick whose candidate frame has
reached `end` leaves the current frame at `end` and the engine stopped, and a reverse
tick whose candidate frame has reached `start` leaves the current frame at `start` and
the engine stopped. -/
theorem playbackTick_once (s : Media) (clk : ClockSample) (now : Int)
    (hmode : s.playbackMode = PlaybackMode.Once) (hb : s.validBounds) :
    (s.playback = Playback.Forward → s.rangeEnd ≤ s.clockFrame Playback.Forward clk →
      (s._playbackTick clk now).currentFrame = s.rangeEnd ∧
      (s._playbackTick clk now).playback = Playback.Stop) ∧
    (s.playback = Playback.Reverse → s.clockFrame Playback.Reverse clk ≤ s.rangeStart →
      (s._playbackTick clk now).currentFrame = s.rangeStart ∧
      (s._playbackTick clk now).playback = Playback.Stop) := by
  have hr := validBounds_range s hb
  constructor
  · intro hpb hc
    have h := stop_then_setCurrentFrame s s.rangeEnd now (by omega) le_rfl
    simp only [Media._playbackTick, hpb, Media.boundary, hmode, ge_iff_le, hc, and_self,
      true_or, if_true]
    exact ⟨trivial, h.2.1⟩
  · intro hpb hc
    have h := stop_then_setCurrentFrame s s.rangeStart now hr.1 hr.2
    simp only [Media._playbackTick, hpb, Media.boundary, hmode, hc, and_self, or_true,
      if_true]
    exact ⟨trivial, h.2.1⟩

/-- Witness of C5: ten frames, forward, the clock twelve frames past frame 0: the next
frame is 9 and the engine stops. -/
theorem playbackTick_once_witness :
    ((Media.tenFrames PlaybackMode.Once)._playbackTick ⟨0, 12⟩ 1).currentFrame = 9 ∧
    ((Media.tenFrames PlaybackMode.Once)._playbackTick ⟨0, 12⟩ 1).playback
      = Playback.Stop :=
  (playbackTick_once (Media.tenFrames PlaybackMode.Once) ⟨0, 12⟩ 1 rfl (by decide)).1 rfl
    (by decide)

/-! ## Video queue update -/

/-- Going forward, the pop loop removes the longest run of frames below the current
frame at the head of the queue, and counts them. -/
theorem popPassed_forward (c : Int) (q : List VideoFrame) :
    popPassed true c q =
      (q.dropWhile (fun f => decide (f.frame < c)),
        (q.takeWhile (fun f => decide (f.frame < c))).length) := by
  induction q with
  | nil => rfl
  | cons f q ih =>
    by_cases h : f.frame < c
    · simp [popPassed, h, ih, List.dropWhile_cons, List.takeWhile_cons]
    · simp [popPassed, h, List.dropWhile_cons, List.takeWhile_cons]

/-- C9, counterexample: the queue holds frame 6 with a null image handle, the current
frame is 6 and image 100 is published.  Nothing is popped, frame 6 is the first
remaining frame, and the published image is still image 100, not the image handle of
frame 6. -/
theorem queueUpdate_null_image_not_published :
    ((Media.withVideoQueue 6 [⟨6, none⟩])._queueUpdate).read.map IRead.videoQueue
      = some [⟨6, none⟩] ∧
    ((Media.withVideoQueue 6 [⟨6, none⟩])._queueUpdate).currentImage = some 100 ∧
    ((Media.withVideoQueue 6 [⟨6, none⟩])._queueUpdate).currentImage
      ≠ (⟨6, none⟩ : VideoFrame).image := by
  decide

/-- C9, amended: during forward playback one `_queueUpdate` removes from the head of
the video queue the longest run of frames numbered below the current frame `c` and
counts them in the real speed counter.  When the queue becomes empty the published
image is unchanged.  Otherwise the first remaining frame is numbered at least `c` and
stays in the queue, and the published image is the image of that frame when its handle
is not null and is unchanged when the handle is null; no popped frame is published. -/
theorem queueUpdate_forward (s : Media) (r : IRead) (hr : s.read = some r)
    (hf : s.playback = Playback.Forward) :
    (s._queueUpdate).read =
      some { r with
        videoQueue := r.videoQueue.dropWhile (fun f => decide (f.frame < s.currentFrame)) } ∧
    (s._queueUpdate).realSpeedFrameCount = s.realSpeedFrameCount +
      (r.videoQueue.takeWhile (fun f => decide (f.frame < s.currentFrame))).length ∧
    (r.videoQueue.dropWhile (fun f => decide (f.frame < s.currentFrame)) = [] →
      (s._queueUpdate).currentImage = s.currentImage) ∧
    (∀ f rest, r.videoQueue.dropWhile (fun f => decide (f.frame < s.currentFrame)) = f :: rest →
      s.currentFrame ≤ f.frame ∧
      (∀ i, f.image = some i → (s._queueUpdate).currentImage = some i) ∧
      (f.image = none → (s._queueUpdate).currentImage = s.currentImage)) := by
  have hfw : (s.playback == Playback.Forward) = true := by simp [hf]
  refine ⟨?_, ?_, ?_, ?_⟩
  · simp only [Media._queueUpdate, hr, hfw, popPassed_forward]
    split <;> rfl
  · simp only [Media._queueUpdate, hr, hfw, popPassed_forward]
    split <;> rfl
  · intro hnil
    simp only [Media._queueUpdate, hr, hfw, popPassed_forward, hnil]
  · intro f rest hcons
    refine ⟨?_, ?_, ?_⟩
    · have hhead := List.head_dropWhile_not (fun f : VideoFrame => decide (f.frame < s.currentFrame))
        r.videoQueue (by rw [hcons]; exact List.cons_ne_nil _ _)
      simp only [hcons, List.head_cons, decide_eq_false_iff_not] at hhead
      omega
    · intro i hi
      simp only [Media._queueUpdate, hr, hfw, popPassed_forward, hcons, hi]
    · intro hi
      simp only [Media._queueUpdate, hr, hfw, popPassed_forward, hcons, hi]

/-- Witness of C9: the queue holds frames 3, 4 and 5 and the current frame is 6; the
update leaves the queue empty, counts three dropped frames and keeps image 100. -/
theorem queueUpdate_forward_witness :
    ((Media.withVideoQueue 6 [⟨3, some 3⟩, ⟨4, some 4⟩, ⟨5, some 5⟩])._queueUpdate).read
      = some { videoQueue := [], audioQueue := [], seeks := [] } ∧
    ((Media.withVideoQueue 6
      [⟨3, some 3⟩, ⟨4, some 4⟩, ⟨5, some 5⟩])._queueUpdate).currentImage = some 100 :=
  have h := queueUpdate_forward
    (Media.withVideoQueue 6 [⟨3, some 3⟩, ⟨4, some 4⟩, ⟨5, some 5⟩])
    { videoQueue := [⟨3, some 3⟩, ⟨4, some 4⟩, ⟨5, some 5⟩], audioQueue := [], seeks := [] }
    rfl rfl
  ⟨h.1, h.2.2.1 (by decide)⟩

/-! ## Seek idempotence -/

/-- C10: a second `_seek(f)` right after a first one leaves the position state as the
first one left it: `frameOffset`, `audioDataOffset`, `audioDataTotal`, the carryover
block, the real speed frame counter and the current frame are equal; so are the
playback state and the queues of the reader. -/
theorem seek_seek_position (s : Media) (f : Int) (now1 now2 : Int) :
    ((s._seek f now1)._seek f now2).frameOffset = (s._seek f now1).frameOffset ∧
    ((s._seek f now1)._seek f now2).audioDataOffset = (s._seek f now1).audioDataOffset ∧
    ((s._seek f now1)._seek f now2).audioDataTotal = (s._seek f now1).audioDataTotal ∧
    ((s._seek f now1)._seek f now2).audioData = (s._seek f now1).audioData ∧
    ((s._seek f now1)._seek f now2).realSpeedFrameCount
      = (s._seek f now1).realSpeedFrameCount ∧
    ((s._seek f now1)._seek f now2).currentFrame = (s._seek f now1).currentFrame ∧
    ((s._seek f now1)._seek f now2).playback = (s._seek f now1).playback ∧
    ((s._seek f now1)._seek f now2).read.map IRead.videoQueue
      = (s._seek f now1).read.map IRead.videoQueue ∧
    ((s._seek f now1)._seek f now2).read.map IRead.audioQueue
      = (s._seek f now1).read.map IRead.audioQueue := by
  refine ⟨rfl, rfl, rfl, rfl, rfl, rfl, rfl, ?_, ?_⟩ <;>
    cases h : s.read <;> simp [Media._seek, IRead.seek, h]

/-! ## Audio callback: lemmas on the copy loops -/

/-- Effect of `memcpy` on a buffer with room for the `n` bytes at offset `p`: the
length is kept and the first `p + n` bytes are the first `p` old bytes followed by the
`n` bytes of the source. -/
theorem memcpy_spec (buffer src : List Byte) (p n : Nat) (hroom : p + n ≤ buffer.length)
    (hsrc : n ≤ src.length) :
    (memcpy buffer p src n).length = buffer.length ∧
    (memcpy buffer p src n).take (p + n) = buffer.take p ++ src.take n := by
  unfold memcpy
  constructor
  · simp only [List.length_append, List.length_take, List.length_drop]
    omega
  · apply List.take_left'
    simp only [List.length_append, List.length_take]
    omega

/-- Counting part of the loop over the drained frames.  With `outputSampleCount` frames
still to fill and no unconsumed carryover left when that number is positive, the loop
delivers `m = min outputSampleCount (queueCount q)` frames: the total grows by `m`, the
write position advances by `m` frames, and the carryover tail plus the remaining queue
hold the other frames of the queue. -/
theorem copyFrames_count (sbc k : Nat) :
    ∀ (q : List AudioFrame) (sc : Nat) (c : AudioCopy) (fs rest : List AudioFrame),
      drainAudioQueue k q sc = (fs, rest) →
      c.outputSampleCount = k - sc →
      (0 < c.outputSampleCount → tailCount c.audioData c.audioDataOffset = 0) →
      carryoverOK c.audioData c.audioDataOffset →
      (fs.foldl (copyFrame sbc) c).audioDataTotal =
        c.audioDataTotal + min c.outputSampleCount (queueCount q) ∧
      (fs.foldl (copyFrame sbc) c).p =
        c.p + min c.outputSampleCount (queueCount q) * sbc ∧
      (fs.foldl (copyFrame sbc) c).outputSampleCount =
        c.outputSampleCount - min c.outputSampleCount (queueCount q) ∧
      tailCount (fs.foldl (copyFrame sbc) c).audioData
          (fs.foldl (copyFrame sbc) c).audioDataOffset + queueCount rest =
        tailCount c.audioData c.audioDataOffset + queueCount q -
          min c.outputSampleCount (queueCount q) ∧
      carryoverOK (fs.foldl (copyFrame sbc) c).audioData
        (fs.foldl (copyFrame sbc) c).audioDataOffset := by
  intro q
  induction q with
  | nil =>
    intro sc c fs rest hd hrem htail hok
    simp only [drainAudioQueue, Prod.mk.injEq] at hd
    obtain ⟨rfl, rfl⟩ := hd
    simp [queueCount, hok]
  | cons f q ih =>
    intro sc c fs rest hd hrem htail hok
    by_cases hlt : sc < k
    · simp only [drainAudioQueue, hlt, if_true, Prod.mk.injEq] at hd
      obtain ⟨rfl, rfl⟩ := hd
      have hpos : 0 < c.outputSampleCount := by omega
      have ht := htail hpos
      have h1 := ih (sc + f.audio.sampleCount) (copyFrame sbc c f) _ _ rfl
        (by simp only [copyFrame]; omega)
        (by simp only [copyFrame, tailCount]; omega)
        (by simp only [copyFrame, carryoverOK]; omega)
      obtain ⟨i1, i2, i3, i4, i5⟩ := h1
      have e1 : (copyFrame sbc c f).audioDataTotal =
          c.audioDataTotal + min f.audio.sampleCount c.outputSampleCount := rfl
      have e2 : (copyFrame sbc c f).p =
          c.p + min f.audio.sampleCount c.outputSampleCount * sbc := rfl
      have e3 : (copyFrame sbc c f).outputSampleCount =
          c.outputSampleCount - min f.audio.sampleCount c.outputSampleCount := rfl
      have e4 : tailCount (copyFrame sbc c f).audioData (copyFrame sbc c f).audioDataOffset =
          f.audio.sampleCount - min f.audio.sampleCount c.outputSampleCount := rfl
      rw [e1, e3] at i1
      rw [e2, e3] at i2
      rw [e3] at i3
      rw [e4, e3] at i4
      simp only [List.foldl_cons, queueCount]
      refine ⟨?_, ?_, ?_, ?_, i5⟩
      · rw [i1]; omega
      · rw [i2, Nat.add_assoc, ← Nat.add_mul]
        congr 2
        omega
      · rw [i3]; omega
      · rw [i4, ht]; omega
    · simp only [drainAudioQueue, hlt, if_false, Prod.mk.injEq] at hd
      obtain ⟨rfl, rfl⟩ := hd
      have h0 : c.outputSampleCount = 0 := by omega
      simp [h0, hok]

/-- Byte part of the loop over the drained frames, for blocks in the format of the
stream and a buffer with room for the `outputSampleCount` frames still to fill: with
`m = min outputSampleCount (queueCount q)`, the loop appends the first `m` frames of
the queue data to the written part of the buffer, and the carryover tail followed by
the remaining queue is the queue data without these frames. -/
theorem copyFrames_bytes (sbc k : Nat) :
    ∀ (q : List AudioFrame) (sc : Nat) (c : AudioCopy) (fs rest : List AudioFrame),
      drainAudioQueue k q sc = (fs, rest) →
      c.outputSampleCount = k - sc →
      c.p + c.outputSampleCount * sbc ≤ c.buffer.length →
      queueOK sbc q →
      (0 < c.outputSampleCount → tailBytes sbc c.audioData c.audioDataOffset = []) →
      (fs.foldl (copyFrame sbc) c).buffer.length = c.buffer.length ∧
      (fs.foldl (copyFrame sbc) c).buffer.take
          (c.p + min c.outputSampleCount (queueCount q) * sbc) =
        c.buffer.take c.p ++
          (queueBytes q).take (min c.outputSampleCount (queueCount q) * sbc) ∧
      tailBytes sbc (fs.foldl (copyFrame sbc) c).audioData
          (fs.foldl (copyFrame sbc) c).audioDataOffset ++ queueBytes rest =
        (tailBytes sbc c.audioData c.audioDataOffset ++ queueBytes q).drop
          (min c.outputSampleCount (queueCount q) * sbc) := by
  intro q
  induction q with
  | nil =>
    intro sc c fs rest hd hrem hroom hq htail
    simp only [drainAudioQueue, Prod.mk.injEq] at hd
    obtain ⟨rfl, rfl⟩ := hd
    simp [queueCount, queueBytes]
  | cons f q ih =>
    intro sc c fs rest hd hrem hroom hq htail
    by_cases hlt : sc < k
    · simp only [drainAudioQueue, hlt, if_true, Prod.mk.injEq] at hd
      obtain ⟨rfl, rfl⟩ := hd
      have hpos : 0 < c.outputSampleCount := by omega
      have ht := htail hpos
      have hf : f.audio.data.length = f.audio.sampleCount * sbc :=
        hq f (List.mem_cons_self _ _)
      have hq1 : queueOK sbc q := fun g hg => hq g (List.mem_cons_of_mem _ hg)
      have eb : (copyFrame sbc c f).buffer =
          memcpy c.buffer c.p f.audio.data (min f.audio.sampleCount c.outputSampleCount * sbc) :=
        rfl
      have ep : (copyFrame sbc c f).p =
          c.p + min f.audio.sampleCount c.outputSampleCount * sbc := rfl
      have er : (copyFrame sbc c f).outputSampleCount =
          c.outputSampleCount - min f.audio.sampleCount c.outputSampleCount := rfl
      have et : tailBytes sbc (copyFrame sbc c f).audioData (copyFrame sbc c f).audioDataOffset =
          f.audio.data.drop (min f.audio.sampleCount c.outputSampleCount * sbc) := rfl
      simp only [List.foldl_cons, queueCount, queueBytes, ht, List.nil_append]
      by_cases hcase : f.audio.sampleCount < c.outputSampleCount
      · -- the block is consumed whole
        have hmin1 : min f.audio.sampleCount c.outputSampleCount = f.audio.sampleCount := by
          omega
        have hmin : min c.outputSampleCount (f.audio.sampleCount + queueCount q) =
            f.audio.sampleCount + min (c.outputSampleCount - f.audio.sampleCount)
              (queueCount q) := by omega
        rw [hmin1] at eb ep er et
        have hle : f.audio.sampleCount * sbc ≤ c.outputSampleCount * sbc :=
          Nat.mul_le_mul_right _ (by omega)
        have hsplit : (c.outputSampleCount - f.audio.sampleCount) * sbc +
            f.audio.sampleCount * sbc = c.outputSampleCount * sbc := by
          rw [← Nat.add_mul, Nat.sub_add_cancel (by omega)]
        have hm := memcpy_spec c.buffer f.audio.data c.p (f.audio.sampleCount * sbc)
          (by omega) (by omega)
        have hdrop : f.audio.data.drop (f.audio.sampleCount * sbc) = [] :=
          List.drop_of_length_le (by omega)
        have htake : f.audio.data.take (f.audio.sampleCount * sbc) = f.audio.data :=
          List.take_of_length_le (by omega)
        have h1 := ih (sc + f.audio.sampleCount) (copyFrame sbc c f) _ _ rfl
          (by rw [er]; omega)
          (by rw [ep, er, eb, hm.1]; omega)
          hq1
          (by intro _; rw [et]; exact hdrop)
        obtain ⟨i1, i2, i3⟩ := h1
        rw [ep, er, eb] at i2
        rw [er, et, hdrop, List.nil_append] at i3
        rw [eb, hm.1] at i1
        rw [hmin, Nat.add_mul, ← Nat.add_assoc]
        refine ⟨i1, ?_, ?_⟩
        · rw [i2, hm.2, htake, List.append_assoc]
          congr 1
          rw [← hf, List.take_append]
        · rw [i3, ← hf, List.drop_append]
      · -- the block fills the rest of the buffer
        have hmin1 : min f.audio.sampleCount c.outputSampleCount = c.outputSampleCount := by
          omega
        have hmin : min c.outputSampleCount (f.audio.sampleCount + queueCount q) =
            c.outputSampleCount := by omega
        rw [hmin1] at eb ep er et
        have hle : c.outputSampleCount * sbc ≤ f.audio.sampleCount * sbc :=
          Nat.mul_le_mul_right _ (by omega)
        have hm := memcpy_spec c.buffer f.audio.data c.p (c.outputSampleCount * sbc)
          (by omega) (by omega)
        have h1 := ih (sc + f.audio.sampleCount) (copyFrame sbc c f) _ _ rfl
          (by rw [er]; omega)
          (by rw [ep, er, eb, hm.1]; simp only [Nat.sub_self, Nat.zero_mul]; omega)
          hq1
          (by intro h; rw [er] at h; omega)
        obtain ⟨i1, i2, i3⟩ := h1
        rw [ep, er, eb] at i2
        rw [er, et] at i3
        simp only [Nat.sub_self, Nat.zero_min, Nat.zero_mul, Nat.add_zero, List.take_zero,
          List.append_nil, List.drop_zero] at i2 i3
        rw [eb, hm.1] at i1
        rw [hmin]
        have htake : (f.audio.data ++ queueBytes q).take (c.outputSampleCount * sbc) =
            f.audio.data.take (c.outputSampleCount * sbc) :=
          List.take_append_of_le_length (by omega)
        have hdrop : (f.audio.data ++ queueBytes q).drop (c.outputSampleCount * sbc) =
            f.audio.data.drop (c.outputSampleCount * sbc) ++ queueBytes q :=
          List.drop_append_of_le_length (by omega)
        refine ⟨i1, ?_, ?_⟩
        · rw [i2, hm.2, htake]
        · rw [i3, hdrop]
    · simp only [drainAudioQueue, hlt, if_false, Prod.mk.injEq] at hd
      obtain ⟨rfl, rfl⟩ := hd
      have h0 : c.outputSampleCount = 0 := by omega
      simp [h0]

/-- Length of the carryover tail in bytes, for a block in the format of the stream. -/
theorem tailBytes_length (sbc : Nat) (audioData : Option AudioData) (offset : Nat)
    (hblock : carryBlockOK sbc audioData) :
    (tailBytes sbc audioData offset).length = tailCount audioData offset * sbc := by
  cases audioData with
  | none => simp [tailBytes, tailCount]
  | some d =>
    have hd : d.data.length = d.sampleCount * sbc := hblock
    simp only [tailBytes, tailCount, List.length_drop, hd, Nat.sub_mul]

/-- Length of the queue data in bytes, for blocks in the format of the stream. -/
theorem queueBytes_length (sbc : Nat) (q : List AudioFrame) (hq : queueOK sbc q) :
    (queueBytes q).length = queueCount q * sbc := by
  induction q with
  | nil => simp [queueBytes, queueCount]
  | cons f q ih =>
    have hf : f.audio.data.length = f.audio.sampleCount * sbc := hq f (List.mem_cons_self _ _)
    have hq1 : queueOK sbc q := fun g hg => hq g (List.mem_cons_of_mem _ hg)
    simp only [queueBytes, queueCount, List.length_append, hf, ih hq1, Nat.add_mul]

/-- Two copies in a row read a prefix of the concatenation of their sources, when the
second copy is empty unless the first one took its whole source. -/
theorem take_drop_two_phase (A B : List Byte) (a b : Nat)
    (h : a = A.length ∨ (a ≤ A.length ∧ b = 0)) :
    A.take a ++ B.take b = (A ++ B).take (a + b) ∧
    (A.drop a ++ B).drop b = (A ++ B).drop (a + b) := by
  rcases h with h | ⟨h1, h2⟩
  · subst h
    simp [List.take_append, List.drop_append]
  · subst h2
    simp [List.take_append_of_le_length h1, List.drop_append_of_le_length h1]

/-- Counting part of the carryover block of the callback: with `t` unconsumed frames
in the carryover block and `m = min t outputSampleCount`, the total grows by `m`, the
write position advances by `m` frames and `t - m` frames stay in the carryover. -/
theorem copyCarryover_count (sbc : Nat) (c : AudioCopy)
    (hok : carryoverOK c.audioData c.audioDataOffset) :
    (copyCarryover sbc c).audioDataTotal =
      c.audioDataTotal + min (tailCount c.audioData c.audioDataOffset) c.outputSampleCount ∧
    (copyCarryover sbc c).p =
      c.p + min (tailCount c.audioData c.audioDataOffset) c.outputSampleCount * sbc ∧
    (copyCarryover sbc c).outputSampleCount =
      c.outputSampleCount - min (tailCount c.audioData c.audioDataOffset) c.outputSampleCount ∧
    tailCount (copyCarryover sbc c).audioData (copyCarryover sbc c).audioDataOffset =
      tailCount c.audioData c.audioDataOffset -
        min (tailCount c.audioData c.audioDataOffset) c.outputSampleCount ∧
    carryoverOK (copyCarryover sbc c).audioData (copyCarryover sbc c).audioDataOffset := by
  unfold copyCarryover
  cases had : c.audioData with
  | none => simp [tailCount, carryoverOK, had]
  | some d =>
    have hle : c.audioDataOffset ≤ d.sampleCount := by
      rw [had] at hok; exact hok
    have hsub : subSizeT d.sampleCount c.audioDataOffset = d.sampleCount - c.audioDataOffset := by
      simp [subSizeT, hle]
    simp only [hsub, tailCount]
    split_ifs with hreset
    · simp only [tailCount, carryoverOK]
      refine ⟨trivial, trivial, trivial, ?_, trivial⟩
      omega
    · simp only [tailCount, carryoverOK]
      refine ⟨trivial, trivial, trivial, ?_, ?_⟩ <;> omega

/-- Byte part of the carryover block of the callback, for a carryover block in the
format of the stream and a buffer with room for `outputSampleCount` frames. -/
theorem copyCarryover_bytes (sbc : Nat) (c : AudioCopy)
    (hok : carryoverOK c.audioData c.audioDataOffset)
    (hblock : carryBlockOK sbc c.audioData)
    (hroom : c.p + c.outputSampleCount * sbc ≤ c.buffer.length) :
    (copyCarryover sbc c).buffer.length = c.buffer.length ∧
    (copyCarryover sbc c).buffer.take
        (c.p + min (tailCount c.audioData c.audioDataOffset) c.outputSampleCount * sbc) =
      c.buffer.take c.p ++ (tailBytes sbc c.audioData c.audioDataOffset).take
        (min (tailCount c.audioData c.audioDataOffset) c.outputSampleCount * sbc) ∧
    tailBytes sbc (copyCarryover sbc c).audioData (copyCarryover sbc c).audioDataOffset =
      (tailBytes sbc c.audioData c.audioDataOffset).drop
        (min (tailCount c.audioData c.audioDataOffset) c.outputSampleCount * sbc) ∧
    carryBlockOK sbc (copyCarryover sbc c).audioData := by
  unfold copyCarryover
  cases had : c.audioData with
  | none => simp [tailCount, tailBytes, carryBlockOK, had]
  | some d =>
    have hle : c.audioDataOffset ≤ d.sampleCount := by
      rw [had] at hok; exact hok
    have hd : d.data.length = d.sampleCount * sbc := by
      rw [had] at hblock; exact hblock
    have hsub : subSizeT d.sampleCount c.audioDataOffset = d.sampleCount - c.audioDataOffset := by
      simp [subSizeT, hle]
    have hm1 : min (d.sampleCount - c.audioDataOffset) c.outputSampleCount * sbc ≤
        c.outputSampleCount * sbc := Nat.mul_le_mul_right _ (by omega)
    have hm2 : min (d.sampleCount - c.audioDataOffset) c.outputSampleCount * sbc ≤
        (d.sampleCount - c.audioDataOffset) * sbc := Nat.mul_le_mul_right _ (by omega)
    have hlen : (d.data.drop (c.audioDataOffset * sbc)).length =
        (d.sampleCount - c.audioDataOffset) * sbc := by
      rw [List.length_drop, hd, Nat.sub_mul]
    have hm := memcpy_spec c.buffer (d.data.drop (c.audioDataOffset * sbc)) c.p
      (min (d.sampleCount - c.audioDataOffset) c.outputSampleCount * sbc)
      (by omega) (by omega)
    simp only [hsub, tailCount, tailBytes]
    split_ifs with hreset
    · simp only [tailBytes, carryBlockOK]
      refine ⟨hm.1, hm.2, ?_, trivial⟩
      symm
      apply List.drop_of_length_le
      have h3 : min (d.sampleCount - c.audioDataOffset) c.outputSampleCount =
          d.sampleCount - c.audioDataOffset := by omega
      rw [hlen, h3]
    · simp only [tailBytes, carryBlockOK]
      refine ⟨hm.1, hm.2, ?_, hd⟩
      rw [List.drop_drop, Nat.add_mul]

/-! ## Audio callback: silence, conservation and stream order -/

/-- Under the carryover invariant the unsigned subtraction that starts `sampleCount`
does not wrap: it is the number of unconsumed frames of the carryover block. -/
theorem carrySampleCount_eq (audioData : Option AudioData) (offset : Nat)
    (hok : carryoverOK audioData offset) :
    carrySampleCount audioData offset = tailCount audioData offset := by
  cases audioData with
  | none => rfl
  | some d =>
    have hle : offset ≤ d.sampleCount := hok
    simp [carrySampleCount, tailCount, subSizeT, hle]

/-- One callback, counted in sample frames: the callback returns, the total grows by
`min k A`, and `A - min k A` frames stay available, for `A` the frames available on
entry.  The carryover invariant and the reader are kept. -/
theorem rtAudioCallback_count (s : Media) (r : IRead) (outputBuffer : List Byte) (k : Nat)
    (now : Int) (hr : s.read = some r)
    (hok : carryoverOK s.audioData s.audioDataOffset) :
    ∃ t buf, s._rtAudioCallback outputBuffer k now = some (t, buf) ∧
      t.audioDataTotal = s.audioDataTotal + min k s.available ∧
      t.available = s.available - min k s.available ∧
      carryoverOK t.audioData t.audioDataOffset ∧
      (∃ r1, t.read = some r1) := by
  have hc := copyCarryover_count s.sampleByteCount
    { audioData := s.audioData, audioDataOffset := s.audioDataOffset,
      audioDataTotal := s.audioDataTotal, buffer := outputBuffer, p := 0,
      outputSampleCount := k } hok
  simp only at hc
  obtain ⟨c1, c2, c3, c4, c5⟩ := hc
  have hf := copyFrames_count s.sampleByteCount k r.audioQueue
    (carrySampleCount s.audioData s.audioDataOffset)
    (copyCarryover s.sampleByteCount
      { audioData := s.audioData, audioDataOffset := s.audioDataOffset,
        audioDataTotal := s.audioDataTotal, buffer := outputBuffer, p := 0,
        outputSampleCount := k }) _ _ rfl
    (by rw [c3, carrySampleCount_eq _ _ hok]; omega)
    (by rw [c3, c4]; omega)
    c5
  rw [c1, c3, c4] at hf
  obtain ⟨f1, _, _, f4, f5⟩ := hf
  refine ⟨_, _, by simp only [Media._rtAudioCallback, hr]; rfl, ?_, ?_, f5, ⟨_, rfl⟩⟩
  · simp only [Media.available, hr]
    rw [f1]
    omega
  · simp only [Media.available, hr]
    rw [f4]
    omega

/-- A run of callbacks, counted in sample frames: the run returns, the total grows by
`min R A` and `A - min R A` frames stay available, for `R` the frames requested by the
run and `A` the frames available before it. -/
theorem rtAudioCallbacks_count :
    ∀ (calls : List (List Byte × Nat × Int)) (s : Media) (r : IRead),
      s.read = some r → carryoverOK s.audioData s.audioDataOffset →
      ∃ t, s.rtAudioCallbacks calls = some t ∧
        t.audioDataTotal = s.audioDataTotal + min (requestedFrames calls) s.available ∧
        t.available = s.available - min (requestedFrames calls) s.available := by
  intro calls
  induction calls with
  | nil =>
    intro s r _ _
    exact ⟨s, rfl, by simp [requestedFrames], by simp [requestedFrames]⟩
  | cons call calls ih =>
    intro s r hr hok
    obtain ⟨t1, buf, h1, h2, h3, h4, r1, h5⟩ :=
      rtAudioCallback_count s r call.1 call.2.1 call.2.2 hr hok
    obtain ⟨t, g1, g2, g3⟩ := ih t1 r1 h5 h4
    refine ⟨t, ?_, ?_, ?_⟩
    · simp only [Media.rtAudioCallbacks, h1]
      exact g1
    · rw [g2, h2, h3]
      simp only [requestedFrames]
      omega
    · rw [g3, h3]
      simp only [requestedFrames]
      omega

/-- C6: when the audio queue is empty and there is no carryover block, the callback
fills the whole output buffer of `k` sample frames with zero bytes, for every stream
format, and leaves `audioDataTotal` unchanged. -/
theorem rtAudioCallback_silence (s : Media) (r : IRead) (outputBuffer : List Byte) (k : Nat)
    (now : Int) (hr : s.read = some r) (hq : r.audioQueue = []) (hnone : s.audioData = none)
    (hbuf : outputBuffer.length = k * s.sampleByteCount) :
    (s._rtAudioCallback outputBuffer k now).map Prod.snd =
      some (List.replicate (k * s.sampleByteCount) 0) ∧
    (s._rtAudioCallback outputBuffer k now).map (fun x => x.1.audioDataTotal) =
      some s.audioDataTotal := by
  constructor
  · simp only [Media._rtAudioCallback, hr, hq, hnone, drainAudioQueue, copyCarryover,
      carrySampleCount, List.foldl_nil, subSizeT, Nat.zero_le, if_true, Nat.sub_zero,
      Option.map_some', Option.some.injEq]
    split_ifs with hz
    · simp only [memset0, List.take_zero, List.nil_append, Nat.zero_add]
      rw [List.drop_of_length_le (by omega), List.append_nil]
    · have h0 : k * s.sampleByteCount = 0 := by omega
      rw [h0] at hbuf ⊢
      simp only [List.replicate_zero]
      exact List.length_eq_zero.mp hbuf
  · simp [Media._rtAudioCallback, hr, hnone, copyCarryover, drainAudioQueue, hq]

/-- Witness of C6: a request of 3 frames of 4 bytes on the silent example state, the
device buffer holding the byte 9 everywhere on entry. -/
theorem rtAudioCallback_silence_witness :
    (Media.silentExample._rtAudioCallback (List.replicate 12 9) 3 0).map Prod.snd =
      some (List.replicate (3 * Media.silentExample.sampleByteCount) 0) ∧
    (Media.silentExample._rtAudioCallback (List.replicate 12 9) 3 0).map
      (fun x => x.1.audioDataTotal) = some Media.silentExample.audioDataTotal :=
  rtAudioCallback_silence Media.silentExample
    { videoQueue := [], audioQueue := [], seeks := [] } (List.replicate 12 9) 3 0 rfl rfl rfl
    (by decide)

/-- C7: with `A` the sample frames available on entry (unconsumed carryover tail plus
audio queue), one callback requesting `k` frames returns, increases `audioDataTotal`
by `min k A` and leaves `A - min k A` frames available; and a run of callbacks
requesting `R` frames in all increases it by `min R A` and leaves `A - min R A`
frames, so that no frame is delivered twice or lost. -/
theorem rtAudioCallback_conservation (s : Media) (r : IRead) (hr : s.read = some r)
    (hok : carryoverOK s.audioData s.audioDataOffset) :
    (∀ (outputBuffer : List Byte) (k : Nat) (now : Int),
      ∃ t buf, s._rtAudioCallback outputBuffer k now = some (t, buf) ∧
        t.audioDataTotal = s.audioDataTotal + min k s.available ∧
        t.available = s.available - min k s.available) ∧
    (∀ calls : List (List Byte × Nat × Int),
      ∃ t, s.rtAudioCallbacks calls = some t ∧
        t.audioDataTotal = s.audioDataTotal + min (requestedFrames calls) s.available ∧
        t.available = s.available - min (requestedFrames calls) s.available) := by
  constructor
  · intro outputBuffer k now
    obtain ⟨t, buf, h1, h2, h3, _⟩ := rtAudioCallback_count s r outputBuffer k now hr hok
    exact ⟨t, buf, h1, h2, h3⟩
  · intro calls
    exact rtAudioCallbacks_count calls s r hr hok

/-- Witness of C7: the audio example state holds 5 available frames; a request of 4
frames delivers 4 and leaves 1, and requests of 2, 2 and 3 frames deliver 5 in all. -/
theorem rtAudioCallback_conservation_witness :
    (Media.audioExample._rtAudioCallback (List.replicate 16 9) 4 0).map
        (fun x => (x.1.audioDataTotal, x.1.available)) = some (5, 1) ∧
    (Media.audioExample.rtAudioCallbacks
        [(List.replicate 8 9, 2, 0), (List.replicate 8 9, 2, 1),
          (List.replicate 12 9, 3, 2)]).map
        (fun x => (x.audioDataTotal, x.available)) = some (6, 0) ∧
    ((∀ (outputBuffer : List Byte) (k : Nat) (now : Int),
      ∃ t buf, Media.audioExample._rtAudioCallback outputBuffer k now = some (t, buf) ∧
        t.audioDataTotal = Media.audioExample.audioDataTotal + min k Media.audioExample.available ∧
        t.available = Media.audioExample.available - min k Media.audioExample.available) ∧
    (∀ calls : List (List Byte × Nat × Int),
      ∃ t, Media.audioExample.rtAudioCallbacks calls = some t ∧
        t.audioDataTotal =
          Media.audioExample.audioDataTotal +
            min (requestedFrames calls) Media.audioExample.available ∧
        t.available =
          Media.audioExample.available -
            min (requestedFrames calls) Media.audioExample.available)) :=
  ⟨by decide, by decide,
    rtAudioCallback_conservation Media.audioExample
      { videoQueue := []
        audioQueue :=
          [ { audio :=
                { info := { channelCount := 2, type := AudioType.S16, sampleRate := 48000 }
                  sampleCount := 2
                  data := [21, 22, 23, 24, 25, 26, 27, 28] } },
            { audio :=
                { info := { channelCount := 2, type := AudioType.S16, sampleRate := 48000 }
                  sampleCount := 1
                  data := [31, 32, 33, 34] } } ]
        seeks := [] } rfl (by decide)⟩

/-- C8: let `S` be the carryover tail followed by the data of the queued blocks, `A`
its length in sample frames and `k` the request.  For blocks in the format of the
stream and a device buffer of `k` sample frames, the callback returns with the buffer
holding the first `min k A` sample frames of `S` followed by zero bytes only, and the
carryover tail followed by the remaining queue is the rest of `S`. -/
theorem rtAudioCallback_stream (s : Media) (r : IRead) (outputBuffer : List Byte) (k : Nat)
    (now : Int) (hr : s.read = some r)
    (hok : carryoverOK s.audioData s.audioDataOffset)
    (hblock : carryBlockOK s.sampleByteCount s.audioData)
    (hq : queueOK s.sampleByteCount r.audioQueue)
    (hbuf : outputBuffer.length = k * s.sampleByteCount) :
    s.pcmStream.length = s.available * s.sampleByteCount ∧
    ∃ t buf, s._rtAudioCallback outputBuffer k now = some (t, buf) ∧
      buf = s.pcmStream.take (min k s.available * s.sampleByteCount) ++
        List.replicate ((k - min k s.available) * s.sampleByteCount) 0 ∧
      t.pcmStream = s.pcmStream.drop (min k s.available * s.sampleByteCount) := by
  have hTlen := tailBytes_length s.sampleByteCount s.audioData s.audioDataOffset hblock
  have hQlen := queueBytes_length s.sampleByteCount r.audioQueue hq
  have hcc := copyCarryover_count s.sampleByteCount
    { audioData := s.audioData, audioDataOffset := s.audioDataOffset,
      audioDataTotal := s.audioDataTotal, buffer := outputBuffer, p := 0,
      outputSampleCount := k } hok
  have hm0 : min (tailCount s.audioData s.audioDataOffset) k * s.sampleByteCount ≤
      k * s.sampleByteCount := Nat.mul_le_mul_right _ (by omega)
  have hsplit : (k - min (tailCount s.audioData s.audioDataOffset) k) * s.sampleByteCount +
      min (tailCount s.audioData s.audioDataOffset) k * s.sampleByteCount =
        k * s.sampleByteCount := by
    rw [← Nat.add_mul, Nat.sub_add_cancel (by omega)]
  have hcb := copyCarryover_bytes s.sampleByteCount
    { audioData := s.audioData, audioDataOffset := s.audioDataOffset,
      audioDataTotal := s.audioDataTotal, buffer := outputBuffer, p := 0,
      outputSampleCount := k } hok hblock (by simp only; omega)
  simp only at hcc hcb
  obtain ⟨_, c2, c3, c4, c5⟩ := hcc
  obtain ⟨b1, b2, b3, b4⟩ := hcb
  have hfc := copyFrames_count s.sampleByteCount k r.audioQueue
    (carrySampleCount s.audioData s.audioDataOffset)
    (copyCarryover s.sampleByteCount
      { audioData := s.audioData, audioDataOffset := s.audioDataOffset,
        audioDataTotal := s.audioDataTotal, buffer := outputBuffer, p := 0,
        outputSampleCount := k }) _ _ rfl
    (by rw [c3, carrySampleCount_eq _ _ hok]; omega)
    (by rw [c3, c4]; omega)
    c5
  have hfb := copyFrames_bytes s.sampleByteCount k r.audioQueue
    (carrySampleCount s.audioData s.audioDataOffset)
    (copyCarryover s.sampleByteCount
      { audioData := s.audioData, audioDataOffset := s.audioDataOffset,
        audioDataTotal := s.audioDataTotal, buffer := outputBuffer, p := 0,
        outputSampleCount := k }) _ _ rfl
    (by rw [c3, carrySampleCount_eq _ _ hok]; omega)
    (by rw [c2, c3, b1]; omega)
    hq
    (by
      intro hpos
      rw [c3] at hpos
      have hz := tailBytes_length s.sampleByteCount _
        (copyCarryover s.sampleByteCount
          { audioData := s.audioData, audioDataOffset := s.audioDataOffset,
            audioDataTotal := s.audioDataTotal, buffer := outputBuffer, p := 0,
            outputSampleCount := k }).audioDataOffset b4
      rw [c4] at hz
      have h0 : tailCount s.audioData s.audioDataOffset -
          min (tailCount s.audioData s.audioDataOffset) k = 0 := by omega
      rw [h0, Nat.zero_mul] at hz
      exact List.length_eq_zero.mp hz)
  obtain ⟨_, f2, _, _, _⟩ := hfc
  obtain ⟨g1, g2, g3⟩ := hfb
  rw [c2, c3] at f2 g2
  rw [c3, b3] at g3
  rw [b1] at g1
  rw [Nat.zero_add] at b2 f2 g2
  rw [b2, List.take_zero, List.nil_append] at g2
  -- the frames delivered by the two phases add up to `min k A`
  have hsum : min (tailCount s.audioData s.audioDataOffset) k +
      min (k - min (tailCount s.audioData s.audioDataOffset) k) (queueCount r.audioQueue) =
        min k (tailCount s.audioData s.audioDataOffset + queueCount r.audioQueue) := by
    omega
  have hphase : min (tailCount s.audioData s.audioDataOffset) k * s.sampleByteCount =
        (tailBytes s.sampleByteCount s.audioData s.audioDataOffset).length ∨
      (min (tailCount s.audioData s.audioDataOffset) k * s.sampleByteCount ≤
        (tailBytes s.sampleByteCount s.audioData s.audioDataOffset).length ∧
        min (k - min (tailCount s.audioData s.audioDataOffset) k) (queueCount r.audioQueue) *
          s.sampleByteCount = 0) := by
    rw [hTlen]
    by_cases hle : tailCount s.audioData s.audioDataOffset ≤ k
    · left
      rw [Nat.min_eq_left hle]
    · right
      have h1 : min (tailCount s.audioData s.audioDataOffset) k = k := by omega
      rw [h1, Nat.sub_self, Nat.zero_min, Nat.zero_mul]
      exact ⟨Nat.mul_le_mul_right _ (by omega), rfl⟩
  have htwo := take_drop_two_phase
    (tailBytes s.sampleByteCount s.audioData s.audioDataOffset) (queueBytes r.audioQueue)
    _ _ hphase
  rw [← Nat.add_mul, hsum] at htwo f2 g2
  rw [htwo.1] at g2
  rw [htwo.2] at g3
  have havail : s.available =
      tailCount s.audioData s.audioDataOffset + queueCount r.audioQueue := by
    simp only [Media.available, hr]
  have hstream : s.pcmStream =
      tailBytes s.sampleByteCount s.audioData s.audioDataOffset ++ queueBytes r.audioQueue := by
    simp only [Media.pcmStream, hr]
  rw [← havail] at g2 g3 f2
  rw [← hstream] at g2 g3
  have hmk : min k s.available * s.sampleByteCount ≤ k * s.sampleByteCount :=
    Nat.mul_le_mul_right _ (by omega)
  refine ⟨?_, _, _, by simp only [Media._rtAudioCallback, hr]; rfl, ?_, ?_⟩
  · rw [hstream, List.length_append, hTlen, hQlen, havail, Nat.add_mul]
  · show (if subSizeT _ _ ≠ 0 then _ else _) = _
    rw [f2]
    have hz : subSizeT (k * s.sampleByteCount) (min k s.available * s.sampleByteCount) =
        (k - min k s.available) * s.sampleByteCount := by
      simp only [subSizeT, hmk, if_true, Nat.sub_mul]
    rw [hz]
    split_ifs with hne
    · simp only [memset0]
      rw [g2, List.drop_of_length_le (by rw [g1, hbuf, Nat.sub_mul]; omega), List.append_nil]
    · have hfull : min k s.available * s.sampleByteCount = k * s.sampleByteCount := by
        rw [Nat.sub_mul] at hne
        omega
      rw [Nat.sub_mul] at hne
      have hz0 : (k - min k s.available) * s.sampleByteCount = 0 := by
        rw [Nat.sub_mul]; omega
      rw [hz0, List.replicate_zero, List.append_nil, ← g2, hfull]
      exact (List.take_of_length_le (by rw [g1, hbuf])).symm
  · simp only [Media.pcmStream]
    exact g3

/-- Witness of C8: on the audio example state a request of 6 frames into a buffer of
24 bytes returns the 8 unconsumed carryover bytes, the 12 bytes of the two queued
blocks and 4 zero bytes. -/
theorem rtAudioCallback_stream_witness :
    (Media.audioExample._rtAudioCallback (List.replicate 24 9) 6 0).map Prod.snd =
      some [5, 6, 7, 8, 9, 10, 11, 12, 21, 22, 23, 24, 25, 26, 27, 28, 31, 32, 33, 34,
        0, 0, 0, 0] ∧
    (Media.audioExample.pcmStream.length =
        Media.audioExample.available * Media.audioExample.sampleByteCount ∧
      ∃ t buf, Media.audioExample._rtAudioCallback (List.replicate 24 9) 6 0 = some (t, buf) ∧
        buf = Media.audioExample.pcmStream.take
            (min 6 Media.audioExample.available * Media.audioExample.sampleByteCount) ++
          List.replicate
            ((6 - min 6 Media.audioExample.available) * Media.audioExample.sampleByteCount) 0 ∧
        t.pcmStream = Media.audioExample.pcmStream.drop
          (min 6 Media.audioExample.available * Media.audioExample.sampleByteCount)) :=
  ⟨by decide,
    rtAudioCallback_stream Media.audioExample
      { videoQueue := []
        audioQueue :=
          [ { audio :=
                { info := { channelCount := 2, type := AudioType.S16, sampleRate := 48000 }
                  sampleCount := 2
                  data := [21, 22, 23, 24, 25, 26, 27, 28] } },
            { audio :=
                { info := { channelCount := 2, type := AudioType.S16, sampleRate := 48000 }
                  sampleCount := 1
                  data := [31, 32, 33, 34] } } ]
        seeks := [] } (List.replicate 24 9) 6 0 rfl (by decide) (by decide) (by decide)
      (by decide)⟩

/-! ## Seek controller -/

/-- C11, counterexample: in the ten frame example state the current frame is 8; after
`_seek(3)` the frame offset is 8, not 3, while the request sent on is for frame 3. -/
theorem seek_frameOffset_not_argument :
    ((Media.withVideoQueue 8 [])._seek 3 0).frameOffset = 8 ∧
    ((Media.withVideoQueue 8 [])._seek 3 0).frameOffset ≠ 3 ∧
    ((Media.withVideoQueue 8 [])._seek 3 0).read.map IRead.seeks
      = some [(3, Direction.Forward)] := by
  decide

/-- C11, amended: after `_seek(f)` the frame offset is the current frame, for every
state and every `f`; the request forwarded to the reader is for frame `f` in the
direction of the engine; and when `_seek` is called with the current frame, as at each
of its call sites, the frame offset is the frame sought. -/
theorem seek_frameOffset_current (s : Media) (f : Int) (now : Int) :
    (s._seek f now).frameOffset = s.currentFrame ∧
    (s._seek f now).currentFrame = s.currentFrame ∧
    (s._seek f now).read = s.read.map (fun r => r.seek f s.ioDirection) ∧
    (s._seek s.currentFrame now).frameOffset = s.currentFrame :=
  ⟨rfl, rfl, rfl, rfl⟩

/-- The zero fill that ends the callback: when `m ≤ k` frames were written into a
buffer of `k` frames, the returned buffer is the written part followed by zero bytes. -/
theorem zeroFill_spec (sbc k m : Nat) (buffer written : List Byte) (hm : m ≤ k)
    (hlen : buffer.length = k * sbc) (htake : buffer.take (m * sbc) = written) :
    (if subSizeT (k * sbc) (m * sbc) ≠ 0 then
        memset0 buffer (m * sbc) (subSizeT (k * sbc) (m * sbc))
      else buffer) = written ++ List.replicate ((k - m) * sbc) 0 := by
  have hmk : m * sbc ≤ k * sbc := Nat.mul_le_mul_right _ hm
  have hz : subSizeT (k * sbc) (m * sbc) = (k - m) * sbc := by
    simp only [subSizeT, hmk, if_true, Nat.sub_mul]
  rw [hz]
  split_ifs with hne
  · simp only [memset0]
    rw [htake, List.drop_of_length_le (by rw [hlen, Nat.sub_mul]; omega), List.append_nil]
  · have hz0 : (k - m) * sbc = 0 := by omega
    have hfull : m * sbc = k * sbc := by
      rw [Nat.sub_mul] at hz0
      omega
    rw [hz0, List.replicate_zero, List.append_nil, ← htake, hfull]
    exact (List.take_of_length_le (by rw [hlen])).symm

/-- A callback on a state without carryover block: for queued blocks in the format of
the stream and a device buffer of `k` sample frames, the returned buffer holds the
first `min k (queueCount q)` sample frames of the queue data followed by zero bytes. -/
theorem rtAudioCallback_noCarryover (t : Media) (r : IRead) (outputBuffer : List Byte)
    (k : Nat) (now : Int) (hr : t.read = some r) (hnone : t.audioData = none)
    (hq : queueOK t.sampleByteCount r.audioQueue)
    (hbuf : outputBuffer.length = k * t.sampleByteCount) :
    (t._rtAudioCallback outputBuffer k now).map Prod.snd =
      some ((queueBytes r.audioQueue).take
          (min k (queueCount r.audioQueue) * t.sampleByteCount) ++
        List.replicate ((k - min k (queueCount r.audioQueue)) * t.sampleByteCount) 0) := by
  have hc0 : copyCarryover t.sampleByteCount
      { audioData := none, audioDataOffset := t.audioDataOffset,
        audioDataTotal := t.audioDataTotal, buffer := outputBuffer, p := 0,
        outputSampleCount := k } =
      { audioData := none, audioDataOffset := t.audioDataOffset,
        audioDataTotal := t.audioDataTotal, buffer := outputBuffer, p := 0,
        outputSampleCount := k } := rfl
  have hfc := copyFrames_count t.sampleByteCount k r.audioQueue 0
    { audioData := none, audioDataOffset := t.audioDataOffset,
      audioDataTotal := t.audioDataTotal, buffer := outputBuffer, p := 0,
      outputSampleCount := k } _ _ rfl rfl (fun _ => rfl) trivial
  have hfb := copyFrames_bytes t.sampleByteCount k r.audioQueue 0
    { audioData := none, audioDataOffset := t.audioDataOffset,
      audioDataTotal := t.audioDataTotal, buffer := outputBuffer, p := 0,
      outputSampleCount := k } _ _ rfl rfl (by simp only; omega) hq (fun _ => rfl)
  simp only [Nat.zero_add, List.take_zero, List.nil_append] at hfc hfb
  obtain ⟨_, f2, _, _, _⟩ := hfc
  obtain ⟨g1, g2, _⟩ := hfb
  rw [hbuf] at g1
  have hz := zeroFill_spec t.sampleByteCount k (min k (queueCount r.audioQueue)) _ _
    (by omega) g1 g2
  simp only [Media._rtAudioCallback, hr, hnone, carrySampleCount, hc0, Option.map_some',
    Option.some.injEq, f2]
  exact hz

/-- C12: after `_seek` there is no carryover block and `audioDataOffset` and
`audioDataTotal` are zero, whatever the carryover was; the result of a callback that
follows does not depend on the carryover block, the offset or the total held before
the seek; and for queued blocks in the format of the stream its output consists of
leading sample frames of the queue followed by zero bytes. -/
theorem seek_discards_carryover (s : Media) (f : Int) (now : Int) :
    (s._seek f now).audioData = none ∧
    (s._seek f now).audioDataOffset = 0 ∧
    (s._seek f now).audioDataTotal = 0 ∧
    (∀ (d : Option AudioData) (o tot : Nat) (buf : List Byte) (k : Nat) (now2 : Int),
      (({ s with audioData := d, audioDataOffset := o, audioDataTotal := tot } :
          Media)._seek f now)._rtAudioCallback buf k now2 =
        (s._seek f now)._rtAudioCallback buf k now2) ∧
    (∀ (r : IRead) (buf : List Byte) (k : Nat) (now2 : Int), s.read = some r →
      queueOK s.sampleByteCount r.audioQueue → buf.length = k * s.sampleByteCount →
      ((s._seek f now)._rtAudioCallback buf k now2).map Prod.snd =
        some ((queueBytes r.audioQueue).take
            (min k (queueCount r.audioQueue) * s.sampleByteCount) ++
          List.replicate ((k - min k (queueCount r.audioQueue)) * s.sampleByteCount) 0)) := by
  refine ⟨rfl, rfl, rfl, fun _ _ _ _ _ _ => rfl, ?_⟩
  intro r buf k now2 hr hq hbuf
  exact rtAudioCallback_noCarryover (s._seek f now) (r.seek f s.ioDirection) buf k now2
    (by simp only [Media._seek, hr, Option.map_some']) rfl hq hbuf

/-- Witness of C12: the audio example state holds a carryover block with bytes 1 to 12,
one frame of it consumed.  After a seek, a request of 4 frames returns the 12 bytes of
the queued blocks and 4 zero bytes, and no byte of the carryover block. -/
theorem seek_discards_carryover_witness :
    ((Media.audioExample._seek 0 5)._rtAudioCallback (List.replicate 16 9) 4 6).map Prod.snd =
      some [21, 22, 23, 24, 25, 26, 27, 28, 31, 32, 33, 34, 0, 0, 0, 0] :=
  (seek_discards_carryover Media.audioExample 0 5).2.2.2.2
    { videoQueue := []
      audioQueue :=
        [ { audio :=
              { info := { channelCount := 2, type := AudioType.S16, sampleRate := 48000 }
                sampleCount := 2
                data := [21, 22, 23, 24, 25, 26, 27, 28] } },
          { audio :=
              { info := { channelCount := 2, type := AudioType.S16, sampleRate := 48000 }
                sampleCount := 1
                data := [31, 32, 33, 34] } } ]
      seeks := [] } (List.replicate 16 9) 4 6 rfl (by decide) (by decide)

/-! ## Control operations: `setCurrentFrame` and `setPlayback` -/

/-- C13: when the wrapped request equals the current frame, `setCurrentFrame` returns
the state it was given: the playback state (whatever it is), `frameOffset`, the audio
accumulators, the carryover block and the reader with its log of seek requests are
unchanged. -/
theorem setCurrentFrame_noop (s : Media) (v : Int) (now : Int)
    (h : s.wrapFrame v = s.currentFrame) :
    s.setCurrentFrame v now = s ∧
    (s.setCurrentFrame v now).playback = s.playback ∧
    (s.setCurrentFrame v now).frameOffset = s.frameOffset ∧
    (s.setCurrentFrame v now).audioDataTotal = s.audioDataTotal ∧
    (s.setCurrentFrame v now).audioDataOffset = s.audioDataOffset ∧
    (s.setCurrentFrame v now).audioData = s.audioData ∧
    (s.setCurrentFrame v now).read = s.read := by
  have he : s.setCurrentFrame v now = s := by
    unfold Media.setCurrentFrame
    simp only [h, if_true]
  rw [he]
  exact ⟨rfl, rfl, rfl, rfl, rfl, rfl, rfl⟩

/-- Witness of C13: the audio example state extended to ten frames, playing forward at
frame 8 with a partly consumed carryover block; a request for frame 8 changes nothing. -/
theorem setCurrentFrame_noop_witness :
    ({ Media.audioExample with
        sequence := Frame.Sequence.ofSize 10, currentFrame := 8, frameOffset := 2,
        playback := Playback.Forward } : Media).setCurrentFrame 8 3 =
      { Media.audioExample with
        sequence := Frame.Sequence.ofSize 10, currentFrame := 8, frameOffset := 2,
        playback := Playback.Forward } :=
  (setCurrentFrame_noop
    { Media.audioExample with
      sequence := Frame.Sequence.ofSize 10, currentFrame := 8, frameOffset := 2,
      playback := Playback.Forward } 8 3 (by decide)).1

/-- C14: when the wrapped request `w` differs from the current frame, `setCurrentFrame`
leaves the current frame at `w`, the engine stopped, `frameOffset` at `w`, the audio
accumulators at zero without carryover block, and, when there is a reader, the newest
seek request in its log is for frame `w`. -/
theorem setCurrentFrame_changed (s : Media) (v : Int) (now : Int)
    (h : s.wrapFrame v ≠ s.currentFrame) :
    (s.setCurrentFrame v now).currentFrame = s.wrapFrame v ∧
    (s.setCurrentFrame v now).playback = Playback.Stop ∧
    (s.setCurrentFrame v now).frameOffset = s.wrapFrame v ∧
    (s.setCurrentFrame v now).audioDataTotal = 0 ∧
    (s.setCurrentFrame v now).audioDataOffset = 0 ∧
    (s.setCurrentFrame v now).audioData = none ∧
    (s.setCurrentFrame v now).read.map (fun r => r.seeks.head?) =
      s.read.map (fun _ => some (s.wrapFrame v, s.ioDirection)) := by
  have hne : ¬ s.currentFrame = s.wrapFrame v := fun e => h e.symm
  have hp := setPlayback_proj { s with currentFrame := s.wrapFrame v } Playback.Stop now
  unfold Media.setCurrentFrame
  simp only [hne, if_false, seek_currentFrame, seek_playback, seek_frameOffset,
    seek_audioDataTotal, seek_audioDataOffset, seek_audioData]
  refine ⟨hp.1, hp.2.1, hp.1, trivial, trivial, trivial, ?_⟩
  cases hpb : s.playback <;> cases hrd : s.read <;>
    simp [Media.setPlayback, Media._playbackUpdate, Media._seek, IRead.seek, hpb, hrd]

/-- Witness of C14: playing forward at frame 6 of ten with a reader; a request for
frame 2 stops the engine at frame 2 and the newest seek request is for frame 2. -/
theorem setCurrentFrame_changed_witness :
    ((Media.withVideoQueue 6 []).setCurrentFrame 2 1).currentFrame = 2 ∧
    ((Media.withVideoQueue 6 []).setCurrentFrame 2 1).playback = Playback.Stop ∧
    ((Media.withVideoQueue 6 []).setCurrentFrame 2 1).frameOffset = 2 ∧
    ((Media.withVideoQueue 6 []).setCurrentFrame 2 1).read.map (fun r => r.seeks.head?) =
      some (some (2, Direction.Forward)) :=
  have h := setCurrentFrame_changed (Media.withVideoQueue 6 []) 2 1 (by decide)
  ⟨h.1, h.2.1, h.2.2.1, h.2.2.2.2.2.2⟩

/-- C15: for a direction `d` other than the playback state of the engine,
`setPlayback(d)` leaves the engine playing in direction `d` at the same current frame,
with `frameOffset` at the current frame, the audio accumulators at zero without
carryover block, and one more seek request sent to the reader, for the current frame
in direction `d`. -/
theorem setPlayback_direction (s : Media) (d : Playback) (now : Int)
    (hd : d = Playback.Forward ∨ d = Playback.Reverse) (hne : s.playback ≠ d) :
    (s.setPlayback d now).playback = d ∧
    (s.setPlayback d now).currentFrame = s.currentFrame ∧
    (s.setPlayback d now).frameOffset = s.currentFrame ∧
    (s.setPlayback d now).audioDataTotal = 0 ∧
    (s.setPlayback d now).audioDataOffset = 0 ∧
    (s.setPlayback d now).audioData = none ∧
    (s.setPlayback d now).read = s.read.map (fun r =>
      r.seek s.currentFrame
        (if d = Playback.Forward then Direction.Forward else Direction.Reverse)) := by
  unfold Media.setPlayback
  rw [if_neg hne]
  rcases hd with rfl | rfl <;>
    exact ⟨rfl, rfl, rfl, rfl, rfl, rfl, rfl⟩

/-- Witness of C15: stopped at frame 6 of ten with a reader; `setPlayback(Reverse)`
plays in reverse from frame 6 and the reader is sent a seek to frame 6 in reverse. -/
theorem setPlayback_direction_witness :
    (({ Media.withVideoQueue 6 [] with playback := Playback.Stop } : Media).setPlayback
        Playback.Reverse 1).playback = Playback.Reverse ∧
    (({ Media.withVideoQueue 6 [] with playback := Playback.Stop } : Media).setPlayback
        Playback.Reverse 1).frameOffset = 6 ∧
    (({ Media.withVideoQueue 6 [] with playback := Playback.Stop } : Media).setPlayback
        Playback.Reverse 1).read.map IRead.seeks = some [(6, Direction.Reverse)] :=
  have h := setPlayback_direction
    ({ Media.withVideoQueue 6 [] with playback := Playback.Stop } : Media)
    Playback.Reverse 1 (Or.inr rfl) (by decide)
  ⟨h.1, h.2.2.1, congrArg (Option.map IRead.seeks) h.2.2.2.2.2.2⟩

/-- C16: from a playing engine, `setPlayback(Stop)` leaves the engine stopped at the
same current frame, with a seek to the current frame sent to the reader, `frameOffset`
at the current frame and the audio accumulators at zero without carryover block; a
playback tick that follows returns the state unchanged. -/
theorem setPlayback_stop (s : Media) (now : Int)
    (hp : s.playback = Playback.Forward ∨ s.playback = Playback.Reverse) :
    (s.setPlayback Playback.Stop now).playback = Playback.Stop ∧
    (s.setPlayback Playback.Stop now).currentFrame = s.currentFrame ∧
    (s.setPlayback Playback.Stop now).read =
      s.read.map (fun r => r.seek s.currentFrame s.ioDirection) ∧
    (s.setPlayback Playback.Stop now).frameOffset = s.currentFrame ∧
    (s.setPlayback Playback.Stop now).audioDataTotal = 0 ∧
    (s.setPlayback Playback.Stop now).audioDataOffset = 0 ∧
    (s.setPlayback Playback.Stop now).audioData = none ∧
    (∀ (clk : ClockSample) (now2 : Int),
      (s.setPlayback Playback.Stop now)._playbackTick clk now2 =
        s.setPlayback Playback.Stop now) := by
  have hne : s.playback ≠ Playback.Stop := by
    rcases hp with h | h <;> rw [h] <;> decide
  have hs : (s.setPlayback Playback.Stop now).playback = Playback.Stop :=
    (setPlayback_proj s Playback.Stop now).2.1
  refine ⟨hs, ?_, ?_, ?_, ?_, ?_, ?_, ?_⟩
  · exact (setPlayback_proj s Playback.Stop now).1
  · unfold Media.setPlayback
    rw [if_neg hne]
    rfl
  · exact setPlayback_frameOffset s Playback.Stop now hne
  · unfold Media.setPlayback
    rw [if_neg hne]
    rfl
  · unfold Media.setPlayback
    rw [if_neg hne]
    rfl
  · unfold Media.setPlayback
    rw [if_neg hne]
    rfl
  · intro clk now2
    unfold Media._playbackTick
    simp only [hs]

/-- Witness of C16: the engine plays forward at frame 6 of ten; after
`setPlayback(Stop)` it is stopped at frame 6 and a tick twelve frames later changes
nothing. -/
theorem setPlayback_stop_witness :
    ((Media.withVideoQueue 6 []).setPlayback Playback.Stop 1).playback = Playback.Stop ∧
    ((Media.withVideoQueue 6 []).setPlayback Playback.Stop 1).currentFrame = 6 ∧
    ((Media.withVideoQueue 6 []).setPlayback Playback.Stop 1)._playbackTick ⟨0, 12⟩ 2 =
      (Media.withVideoQueue 6 []).setPlayback Playback.Stop 1 :=
  have h := setPlayback_stop (Media.withVideoQueue 6 []) 1 (Or.inl rfl)
  ⟨h.1, h.2.1, h.2.2.2.2.2.2.2 ⟨0, 12⟩ 2⟩

/-- C17: on the wall clock branch, with `e` the whole frames elapsed since `startTime`,
a forward tick without audio and with `frameOffset + e < end` returns the state with
the current frame set to `frameOffset + e` and nothing else changed, and a reverse
tick with `frameOffset - e > start` returns the state with the current frame set to
`frameOffset - e` and nothing else changed: the playback state, the playback mode,
`frameOffset` and the reader with its log of seek requests are as before. -/
theorem playbackTick_wallClock (s : Media) (clk : ClockSample) (now : Int) :
    (s.playback = Playback.Forward → s._hasAudio = false →
      s.frameOffset + clk.elapsed < s.rangeEnd →
      s._playbackTick clk now = { s with currentFrame := s.frameOffset + clk.elapsed }) ∧
    (s.playback = Playback.Reverse → s.rangeStart < s.frameOffset - clk.elapsed →
      s._playbackTick clk now = { s with currentFrame := s.frameOffset - clk.elapsed }) := by
  constructor
  · intro hpb hna hlt
    have hnb : ¬ s.rangeEnd ≤ s.frameOffset + clk.elapsed := by omega
    simp [Media._playbackTick, Media.clockFrame, hpb, hna, hnb]
  · intro hpb hlt
    have hnb : ¬ s.frameOffset - clk.elapsed ≤ s.rangeStart := by omega
    simp [Media._playbackTick, Media.clockFrame, hpb, hnb]

/-- Witness of C17: ten frames without audio, playing forward from frame offset 0 at
current frame 8; three whole frames elapsed give the current frame 3. -/
theorem playbackTick_wallClock_witness :
    (Media.tenFrames PlaybackMode.Loop)._playbackTick ⟨0, 3⟩ 1 =
      { Media.tenFrames PlaybackMode.Loop with currentFrame := 3 } :=
  (playbackTick_wallClock (Media.tenFrames PlaybackMode.Loop) ⟨0, 3⟩ 1).1 rfl rfl
    (by decide)

/-! ## Opening the source -/

/-- C18: when creating the reader raises, `_open` and `reload` return a state, namely
the given state after `_seek(currentFrame)`: the sequence, the speed, the current frame
and the playback state are as before, so that a stopped engine stays stopped, and the
reader held before is kept. -/
theorem open_reader_throws (s : Media) (env : OpenEnv) (now : Int)
    (h : env.read = ReadResult.throws) :
    s._open env now = s._seek s.currentFrame now ∧
    s.reload env now = s._seek s.currentFrame now ∧
    (s.reload env now).sequence = s.sequence ∧
    (s.reload env now).speed = s.speed ∧
    (s.reload env now).currentFrame = s.currentFrame ∧
    (s.reload env now).playback = s.playback ∧
    (s.playback = Playback.Stop → (s.reload env now).playback = Playback.Stop) ∧
    (s.reload env now).read.map IRead.videoQueue = s.read.map IRead.videoQueue := by
  have he : s._open env now = s._seek s.currentFrame now := by
    unfold Media._open
    simp only [h]
  have hr : s.reload env now = s._seek s.currentFrame now := he
  rw [hr]
  refine ⟨he, rfl, rfl, rfl, rfl, rfl, fun hs => hs, ?_⟩
  cases hrd : s.read <;> simp [Media._seek, IRead.seek, hrd]

/-- Witness of C18: the stopped engine at frame 6 of ten with a reader; a reload whose
reader cannot be created keeps the sequence, the current frame and the stopped state. -/
theorem open_reader_throws_witness :
    (({ Media.withVideoQueue 6 [] with playback := Playback.Stop } : Media).reload
        OpenEnv.failing 1).sequence = Frame.Sequence.ofSize 10 ∧
    (({ Media.withVideoQueue 6 [] with playback := Playback.Stop } : Media).reload
        OpenEnv.failing 1).currentFrame = 6 ∧
    (({ Media.withVideoQueue 6 [] with playback := Playback.Stop } : Media).reload
        OpenEnv.failing 1).playback = Playback.Stop :=
  have h := open_reader_throws
    ({ Media.withVideoQueue 6 [] with playback := Playback.Stop } : Media)
    OpenEnv.failing 1 rfl
  ⟨h.2.2.1, h.2.2.2.2.1, h.2.2.2.2.2.2.1 rfl⟩

/-! ## Audio device failure -/

/-- A missing device object stays missing across `_playbackUpdate`. -/
theorem playbackUpdate_rtAudio_none (s : Media) (now : Int) (h : s.rtAudio = none) :
    (s._playbackUpdate now).rtAudio = none := by
  unfold Media._playbackUpdate
  cases hp : s.playback <;> simp [Media._seek, h]

/-- A missing device object stays missing across `setPlayback`. -/
theorem setPlayback_rtAudio_none (s : Media) (p : Playback) (now : Int)
    (h : s.rtAudio = none) : (s.setPlayback p now).rtAudio = none := by
  unfold Media.setPlayback
  split
  · exact h
  · exact playbackUpdate_rtAudio_none _ now h

/-- A missing device object stays missing across `setCurrentFrame`. -/
theorem setCurrentFrame_rtAudio_none (s : Media) (v : Int) (now : Int)
    (h : s.rtAudio = none) : (s.setCurrentFrame v now).rtAudio = none := by
  unfold Media.setCurrentFrame
  by_cases hc : s.currentFrame = s.wrapFrame v
  · simp only [hc, if_true]
    exact h
  · have h1 := setPlayback_rtAudio_none { s with currentFrame := s.wrapFrame v }
      Playback.Stop now h
    simp only [hc, if_false, Media._seek, h1, Option.map_none']

/-- A missing device object stays missing across a playback tick. -/
theorem playbackTick_rtAudio_none (s : Media) (clk : ClockSample) (now : Int)
    (h : s.rtAudio = none) : (s._playbackTick clk now).rtAudio = none := by
  have hsc : ∀ f p, (((s.setPlayback Playback.Stop now).setCurrentFrame f now).setPlayback
      p now).rtAudio = none := fun f p =>
    setPlayback_rtAudio_none _ p now
      (setCurrentFrame_rtAudio_none _ f now (setPlayback_rtAudio_none s _ now h))
  have hso : ∀ f, ((s.setPlayback Playback.Stop now).setCurrentFrame f now).rtAudio = none :=
    fun f => setCurrentFrame_rtAudio_none _ f now (setPlayback_rtAudio_none s _ now h)
  have hb : (s.boundary now).1.rtAudio = none := by
    unfold Media.boundary
    cases hm : s.playbackMode <;> simp only [hsc, hso]
  unfold Media._playbackTick
  split
  · exact h
  · simp only
    split
    · exact hb
    · exact h

/-- C19, counterexample: the device object is created and the source has a valid
audio stream, but the device stream cannot be opened.  The engine still reports audio,
and a forward tick whose audio anchored reading is 5 frames and whose wall clock
reading is 2 frames stores frame 5, the value of the audio branch. -/
theorem hasAudio_after_stream_failure :
    (Media._init true (OpenEnv.tenFramesWithAudio false) 0).rtAudio
      = some { streamOpen := false, running := false } ∧
    (Media._init true (OpenEnv.tenFramesWithAudio false) 0)._hasAudio = true ∧
    (((Media._init true (OpenEnv.tenFramesWithAudio false) 0).setPlayback Playback.Forward
        1)._playbackTick ⟨5, 2⟩ 2).currentFrame = 5 ∧
    (((Media._init true (OpenEnv.tenFramesWithAudio false) 0).setPlayback Playback.Forward
        1)._playbackTick ⟨5, 2⟩ 2).currentFrame ≠
      ((Media._init true (OpenEnv.tenFramesWithAudio false) 0).setPlayback Playback.Forward
        1).frameOffset + 2 := by
  decide

/-- C19, amended: when the device object cannot be created the engine has no audio.
`_init` leaves no device object; a state without device object reports no audio, the
candidate frame of a forward tick is `frameOffset` plus the wall clock reading, the
tick does not depend on the audio anchored reading, and every operation keeps the
device object missing.  A failure to open the device stream keeps the device object,
so that with a valid audio description the engine reports audio and the candidate
frame of a forward tick is `frameOffset` plus the audio anchored reading. -/
theorem hasAudio_device (s : Media) (clk : ClockSample) (now : Int) :
    (∀ (env : OpenEnv) (now0 : Int), (Media._init false env now0).rtAudio = none) ∧
    (s.rtAudio = none →
      s._hasAudio = false ∧
      s.clockFrame Playback.Forward clk = s.frameOffset + clk.elapsed ∧
      (∀ a : Int, s._playbackTick ⟨a, clk.elapsed⟩ now = s._playbackTick clk now) ∧
      (∀ (f : Int) (n : Int), (s._seek f n).rtAudio = none) ∧
      (∀ (p : Playback) (n : Int), (s.setPlayback p n).rtAudio = none) ∧
      (∀ (v : Int) (n : Int), (s.setCurrentFrame v n).rtAudio = none) ∧
      (∀ (c : ClockSample) (n : Int), (s._playbackTick c n).rtAudio = none) ∧
      (s._queueUpdate).rtAudio = none ∧
      (∀ (env : OpenEnv) (n : Int), (s.reload env n).rtAudio = none) ∧
      (∀ (buf : List Byte) (k : Nat) (n : Int) (t : Media) (out : List Byte),
        s._rtAudioCallback buf k n = some (t, out) → t.rtAudio = none)) ∧
    (∀ (r : IRead) (info : IOInfo) (env : OpenEnv) (n : Int),
      env.read = ReadResult.reader r (some info) → env.streamOpens = false →
      s.rtAudio.isSome = true →
      (s._open env n).rtAudio = some { streamOpen := false, running := false } ∧
      ((s._open env n).audioInfo.isValid = true →
        (s._open env n)._hasAudio = true ∧
        (s._open env n).clockFrame Playback.Forward clk =
          (s._open env n).frameOffset + clk.audioAdvance)) := by
  refine ⟨?_, ?_, ?_⟩
  · intro env now0
    unfold Media._init Media._open
    rcases hr : env.read with _ | ⟨r, _ | info⟩ <;> simp [Media._seek, Media.initial]
  · intro h
    have hna : s._hasAudio = false := by simp [Media._hasAudio, h]
    refine ⟨hna, ?_, ?_, ?_, ?_, ?_, ?_, ?_, ?_, ?_⟩
    · simp [Media.clockFrame, hna]
    · intro a
      unfold Media._playbackTick
      cases hp : s.playback <;> simp [Media.clockFrame, hna]
    · intro f n
      simp [Media._seek, h]
    · intro p n
      exact setPlayback_rtAudio_none s p n h
    · intro v n
      exact setCurrentFrame_rtAudio_none s v n h
    · intro c n
      exact playbackTick_rtAudio_none s c n h
    · unfold Media._queueUpdate
      cases hr : s.read with
      | none => exact h
      | some r =>
        simp only
        split <;> exact h
    · intro env n
      unfold Media.reload Media._open
      rcases hr : env.read with _ | ⟨r, _ | info⟩ <;> simp [Media._seek, h]
    · intro buf k n t out hcb
      unfold Media._rtAudioCallback at hcb
      cases hr : s.read with
      | none => simp [hr] at hcb
      | some r =>
        simp only [hr, Option.some.injEq, Prod.mk.injEq] at hcb
        rw [← hcb.1]
        exact h
  · intro r info env n hr hso hsome
    obtain ⟨a, ha⟩ := Option.isSome_iff_exists.mp hsome
    have hrt : (s._open env n).rtAudio = some { streamOpen := false, running := false } := by
      unfold Media._open
      simp [hr, hso, ha, Media._seek, RtAudio.reopenStream, RtAudio.abortStream]
    refine ⟨hrt, ?_⟩
    intro hv
    have hha : (s._open env n)._hasAudio = true := by
      simp [Media._hasAudio, hv, hrt]
    exact ⟨hha, by simp [Media.clockFrame, hha]⟩

/-- Witness of C19: the engine initialised without device object on a source with a
valid audio stream reports no audio, and its forward tick with audio anchored reading
5 and wall clock reading 2 stores frame 2. -/
theorem hasAudio_device_witness :
    (Media._init false (OpenEnv.tenFramesWithAudio true) 0)._hasAudio = false ∧
    (((Media._init false (OpenEnv.tenFramesWithAudio true) 0).setPlayback Playback.Forward
        1)._playbackTick ⟨5, 2⟩ 2).currentFrame = 2 ∧
    ((Media._init false (OpenEnv.tenFramesWithAudio true) 0).clockFrame Playback.Forward
        ⟨5, 2⟩ = (Media._init false (OpenEnv.tenFramesWithAudio true) 0).frameOffset + 2) :=
  have h := (hasAudio_device (Media._init false (OpenEnv.tenFramesWithAudio true) 0)
    ⟨5, 2⟩ 2).2.1 (by decide)
  ⟨h.1, by decide, h.2.1⟩

/-! ## Stale frames after a seek -/

/-- When the engine does not play forward, the pop loop removes the longest run of
frames above the current frame at the head of the queue, and counts them. -/
theorem popPassed_notForward (c : Int) (q : List VideoFrame) :
    popPassed false c q =
      (q.dropWhile (fun f => decide (f.frame > c)),
        (q.takeWhile (fun f => decide (f.frame > c))).length) := by
  induction q with
  | nil => rfl
  | cons f q ih =>
    by_cases h : f.frame > c
    · simp [popPassed, h, ih, List.dropWhile_cons, List.takeWhile_cons]
    · simp [popPassed, h, List.dropWhile_cons, List.takeWhile_cons]

/-- C20, counterexample: the queue holds frame 3 with image 33 and image 100 is
published; `setCurrentFrame(5)` stops the engine at frame 5 and leaves frame 3 at the
head of the queue.  The queue update that follows keeps frame 3 in the queue and
publishes its image. -/
theorem queueUpdate_stale_lower_published :
    ((Media.withVideoQueue 3 [⟨3, some 33⟩]).setCurrentFrame 5 1).playback = Playback.Stop ∧
    ((Media.withVideoQueue 3 [⟨3, some 33⟩]).setCurrentFrame 5 1).currentFrame = 5 ∧
    ((Media.withVideoQueue 3 [⟨3, some 33⟩]).setCurrentFrame 5 1).read.map IRead.videoQueue
      = some [⟨3, some 33⟩] ∧
    ((Media.withVideoQueue 3 [⟨3, some 33⟩]).setCurrentFrame 5 1).currentImage = some 100 ∧
    (((Media.withVideoQueue 3 [⟨3, some 33⟩]).setCurrentFrame 5 1)._queueUpdate).read.map
      IRead.videoQueue = some [⟨3, some 33⟩] ∧
    (((Media.withVideoQueue 3 [⟨3, some 33⟩]).setCurrentFrame 5 1)._queueUpdate).currentImage
      = some 33 := by
  decide

/-- C20, amended: in a stopped engine at current frame `c`, as `setCurrentFrame` leaves
it, a queue update removes a head frame numbered above `c`: the queue becomes what is
left of its tail once the leading frames above `c` are gone, and an image published by
the update is the image of the first remaining frame, which is numbered at most `c`.
A head frame numbered at most `c` stays in the queue, and its image is published when
its handle is not null. -/
theorem queueUpdate_stopped (s : Media) (r : IRead) (h : VideoFrame)
    (rest : List VideoFrame) (hr : s.read = some r) (hs : s.playback = Playback.Stop)
    (hq : r.videoQueue = h :: rest) :
    (s.currentFrame < h.frame →
      (s._queueUpdate).read = some { r with
        videoQueue := rest.dropWhile (fun f => decide (f.frame > s.currentFrame)) } ∧
      (rest.dropWhile (fun f => decide (f.frame > s.currentFrame)) = [] →
        (s._queueUpdate).currentImage = s.currentImage) ∧
      (∀ g tl, rest.dropWhile (fun f => decide (f.frame > s.currentFrame)) = g :: tl →
        g.frame ≤ s.currentFrame ∧
        (∀ i, g.image = some i → (s._queueUpdate).currentImage = some i) ∧
        (g.image = none → (s._queueUpdate).currentImage = s.currentImage))) ∧
    (h.frame ≤ s.currentFrame →
      (s._queueUpdate).read = some r ∧
      (∀ i, h.image = some i → (s._queueUpdate).currentImage = some i) ∧
      (h.image = none → (s._queueUpdate).currentImage = s.currentImage)) := by
  have hfw : (s.playback == Playback.Forward) = false := by simp [hs]
  constructor
  · intro hgt
    have hd : (h :: rest).dropWhile (fun f => decide (f.frame > s.currentFrame)) =
        rest.dropWhile (fun f => decide (f.frame > s.currentFrame)) := by
      simp [List.dropWhile_cons, hgt]
    refine ⟨?_, ?_, ?_⟩
    · simp only [Media._queueUpdate, hr, hfw, popPassed_notForward, hq, hd]
      split <;> rfl
    · intro hnil
      simp only [Media._queueUpdate, hr, hfw, popPassed_notForward, hq, hd, hnil]
    · intro g tl hcons
      refine ⟨?_, ?_, ?_⟩
      · have hhead := List.head_dropWhile_not
          (fun f : VideoFrame => decide (f.frame > s.currentFrame)) rest
          (by rw [hcons]; exact List.cons_ne_nil _ _)
        simp only [hcons, List.head_cons, decide_eq_false_iff_not] at hhead
        omega
      · intro i hi
        simp only [Media._queueUpdate, hr, hfw, popPassed_notForward, hq, hd, hcons, hi]
      · intro hi
        simp only [Media._queueUpdate, hr, hfw, popPassed_notForward, hq, hd, hcons, hi]
  · intro hle
    have hd : (h :: rest).dropWhile (fun f => decide (f.frame > s.currentFrame)) =
        h :: rest := by
      have hn : ¬ h.frame > s.currentFrame := by omega
      simp [List.dropWhile_cons, hn]
    have ht : (h :: rest).takeWhile (fun f => decide (f.frame > s.currentFrame)) = [] := by
      have hn : ¬ h.frame > s.currentFrame := by omega
      simp [List.takeWhile_cons, hn]
    refine ⟨?_, ?_, ?_⟩
    · have hrr : ({ r with videoQueue := h :: rest } : IRead) = r := by
        rw [← hq]
      cases hi : h.image <;>
        simp [Media._queueUpdate, hr, hfw, popPassed_notForward, hq, hd, hi, hrr]
    · intro i hi
      simp only [Media._queueUpdate, hr, hfw, popPassed_notForward, hq, hd, hi]
    · intro hi
      simp only [Media._queueUpdate, hr, hfw, popPassed_notForward, hq, hd, hi]

/-- Witness of C20: the queue holds frame 7 with image 77 and frame 5 with image 55;
`setCurrentFrame(5)` stops the engine at frame 5, and the queue update that follows
removes frame 7 and publishes image 55. -/
theorem queueUpdate_stopped_witness :
    (((Media.withVideoQueue 3 [⟨7, some 77⟩, ⟨5, some 55⟩]).setCurrentFrame 5 1)._queueUpdate).read
        = some { videoQueue := [⟨5, some 55⟩], audioQueue := [],
                 seeks := [(5, Direction.Forward), (5, Direction.Forward)] } ∧
    (((Media.withVideoQueue 3
        [⟨7, some 77⟩, ⟨5, some 55⟩]).setCurrentFrame 5 1)._queueUpdate).currentImage
        = some 55 :=
  have h := (queueUpdate_stopped
    ((Media.withVideoQueue 3 [⟨7, some 77⟩, ⟨5, some 55⟩]).setCurrentFrame 5 1)
    { videoQueue := [⟨7, some 77⟩, ⟨5, some 55⟩], audioQueue := [],
      seeks := [(5, Direction.Forward), (5, Direction.Forward)] }
    ⟨7, some 77⟩ [⟨5, some 55⟩] (by decide) (by decide) rfl).1 (by decide)
  ⟨h.1, (h.2.2 ⟨5, some 55⟩ [] rfl).2.1 55 rfl⟩

/-! ## Frame of the audio callback -/

/-- The result of the callback on a state with a reader, written with the variables of
its copy loops. -/
theorem rtAudioCallback_eq (s : Media) (r : IRead) (outputBuffer : List Byte) (k : Nat)
    (now : Int) (hr : s.read = some r) :
    s._rtAudioCallback outputBuffer k now =
      some
        ({ s with
            read := some { r with
              audioQueue := (drainAudioQueue k r.audioQueue
                (carrySampleCount s.audioData s.audioDataOffset)).2 }
            audioData := (s.audioCopy r outputBuffer k).audioData
            audioDataOffset := (s.audioCopy r outputBuffer k).audioDataOffset
            audioDataTotal := (s.audioCopy r outputBuffer k).audioDataTotal
            audioDataTimeOffset :=
              if s.audioData.isSome ∨ (drainAudioQueue k r.audioQueue
                  (carrySampleCount s.audioData s.audioDataOffset)).1 ≠ [] then now
              else s.audioDataTimeOffset },
          if subSizeT (k * s.sampleByteCount) (s.audioCopy r outputBuffer k).p ≠ 0 then
            memset0 (s.audioCopy r outputBuffer k).buffer (s.audioCopy r outputBuffer k).p
              (subSizeT (k * s.sampleByteCount) (s.audioCopy r outputBuffer k).p)
          else (s.audioCopy r outputBuffer k).buffer) := by
  simp only [Media._rtAudioCallback, hr]
  rfl

/-- C21: with a reader, the callback returns a state that differs from the given one
in the carryover block, `audioDataOffset`, `audioDataTotal`, `audioDataTimeOffset` and
the audio queue of the reader only; the playback state and mode, the in/out points and
their flag, the current frame, `frameOffset` and `startTime` are as before. -/
theorem rtAudioCallback_frame (s : Media) (r : IRead) (outputBuffer : List Byte) (k : Nat)
    (now : Int) (hr : s.read = some r) :
    ∃ t out, s._rtAudioCallback outputBuffer k now = some (t, out) ∧
      t.playback = s.playback ∧ t.playbackMode = s.playbackMode ∧
      t.inPoint = s.inPoint ∧ t.outPoint = s.outPoint ∧
      t.inOutPointsEnabled = s.inOutPointsEnabled ∧
      t.currentFrame = s.currentFrame ∧ t.frameOffset = s.frameOffset ∧
      t.startTime = s.startTime ∧
      (∃ q, t.read = some { r with audioQueue := q }) ∧
      t = { s with
        read := t.read
        audioData := t.audioData
        audioDataOffset := t.audioDataOffset
        audioDataTotal := t.audioDataTotal
        audioDataTimeOffset := t.audioDataTimeOffset } := by
  exact ⟨_, _, rtAudioCallback_eq s r outputBuffer k now hr,
    rfl, rfl, rfl, rfl, rfl, rfl, rfl, rfl, ⟨_, rfl⟩, rfl⟩

/-- Witness of C21: a request of 4 frames on the audio example state keeps the playback
state, the current frame, `frameOffset` and `startTime`, and the video queue. -/
theorem rtAudioCallback_frame_witness :
    ∃ t out, Media.audioExample._rtAudioCallback (List.replicate 16 9) 4 7 = some (t, out) ∧
      t.playback = Media.audioExample.playback ∧
      t.playbackMode = Media.audioExample.playbackMode ∧
      t.currentFrame = Media.audioExample.currentFrame ∧
      t.frameOffset = Media.audioExample.frameOffset ∧
      t.startTime = Media.audioExample.startTime :=
  have h := rtAudioCallback_frame Media.audioExample
    { videoQueue := []
      audioQueue :=
        [ { audio :=
              { info := { channelCount := 2, type := AudioType.S16, sampleRate := 48000 }
                sampleCount := 2
                data := [21, 22, 23, 24, 25, 26, 27, 28] } },
          { audio :=
              { info := { channelCount := 2, type := AudioType.S16, sampleRate := 48000 }
                sampleCount := 1
                data := [31, 32, 33, 34] } } ]
      seeks := [] } (List.replicate 16 9) 4 7 rfl
  match h with
  | ⟨t, out, h0, h1, h2, _, _, _, h6, h7, h8, _⟩ => ⟨t, out, h0, h1, h2, h6, h7, h8⟩

/-! ## Speed and real speed -/

/-- C22: `setSpeed` with a speed other than the current one stores it and leaves
`frameOffset` at the current frame and the real speed frame counter at zero, while the
current frame, the playback state, the carryover block, `audioDataOffset` and
`audioDataTotal` are unchanged; `setSpeed` with the current speed returns the state
unchanged. -/
theorem setSpeed_effect (s : Media) (value : Speed) (now : Int) :
    (value ≠ s.speed →
      (s.setSpeed value now).speed = value ∧
      (s.setSpeed value now).frameOffset = s.currentFrame ∧
      (s.setSpeed value now).realSpeedFrameCount = 0 ∧
      (s.setSpeed value now).currentFrame = s.currentFrame ∧
      (s.setSpeed value now).playback = s.playback ∧
      (s.setSpeed value now).audioData = s.audioData ∧
      (s.setSpeed value now).audioDataOffset = s.audioDataOffset ∧
      (s.setSpeed value now).audioDataTotal = s.audioDataTotal) ∧
    s.setSpeed s.speed now = s := by
  constructor
  · intro hne
    have h : ¬ s.speed = value := fun e => hne e.symm
    unfold Media.setSpeed
    rw [if_neg h]
    exact ⟨rfl, rfl, rfl, rfl, rfl, rfl, rfl, rfl⟩
  · unfold Media.setSpeed
    rw [if_pos rfl]

/-- Witness of C22: the audio example state extended to current frame 8 with frame
offset 2 and three frames counted; a speed of 30 frames per second is stored, the
frame offset becomes 8 and the counter 0. -/
theorem setSpeed_effect_witness :
    (({ Media.audioExample with
          currentFrame := 8, frameOffset := 2, realSpeedFrameCount := 3 } :
        Media).setSpeed { num := 30, den := 1 } 4).frameOffset = 8 ∧
    (({ Media.audioExample with
          currentFrame := 8, frameOffset := 2, realSpeedFrameCount := 3 } :
        Media).setSpeed { num := 30, den := 1 } 4).realSpeedFrameCount = 0 ∧
    (({ Media.audioExample with
          currentFrame := 8, frameOffset := 2, realSpeedFrameCount := 3 } :
        Media).setSpeed { num := 30, den := 1 } 4).audioDataTotal = 1 :=
  have h := (setSpeed_effect
    ({ Media.audioExample with
        currentFrame := 8, frameOffset := 2, realSpeedFrameCount := 3 } : Media)
    { num := 30, den := 1 } 4).1 (by decide)
  ⟨h.2.1, h.2.2.1, h.2.2.2.2.2.2.2⟩

/-- C23: a firing of the real speed timer publishes the frame counter divided by the
seconds elapsed since `realSpeedTime`, and zero when no time has elapsed; it then
leaves the counter at zero and `realSpeedTime` at the clock reading.  Nothing else
changes: the current frame, the playback state and mode, `frameOffset`, the audio
accumulators, the carryover block and the reader with both queues are as before. -/
theorem realSpeedTimer_effect (s : Media) (ticksPerSecond : Nat) (now : Int) :
    (((now - s.realSpeedTime : Int) : Rat) / (ticksPerSecond : Rat) ≠ 0 →
      (s.realSpeedTimerCallback ticksPerSecond now).realSpeed =
        (s.realSpeedFrameCount : Rat) /
          (((now - s.realSpeedTime : Int) : Rat) / (ticksPerSecond : Rat))) ∧
    (now = s.realSpeedTime → (s.realSpeedTimerCallback ticksPerSecond now).realSpeed = 0) ∧
    (s.realSpeedTimerCallback ticksPerSecond now).realSpeedFrameCount = 0 ∧
    (s.realSpeedTimerCallback ticksPerSecond now).realSpeedTime = now ∧
    (s.realSpeedTimerCallback ticksPerSecond now).currentFrame = s.currentFrame ∧
    (s.realSpeedTimerCallback ticksPerSecond now).playback = s.playback ∧
    (s.realSpeedTimerCallback ticksPerSecond now).playbackMode = s.playbackMode ∧
    (s.realSpeedTimerCallback ticksPerSecond now).frameOffset = s.frameOffset ∧
    (s.realSpeedTimerCallback ticksPerSecond now).audioData = s.audioData ∧
    (s.realSpeedTimerCallback ticksPerSecond now).audioDataOffset = s.audioDataOffset ∧
    (s.realSpeedTimerCallback ticksPerSecond now).audioDataTotal = s.audioDataTotal ∧
    (s.realSpeedTimerCallback ticksPerSecond now).read = s.read ∧
    s.realSpeedTimerCallback ticksPerSecond now =
      { s with
        realSpeed := (s.realSpeedTimerCallback ticksPerSecond now).realSpeed
        realSpeedTime := now
        realSpeedFrameCount := 0 } := by
  refine ⟨?_, ?_, rfl, rfl, rfl, rfl, rfl, rfl, rfl, rfl, rfl, rfl, rfl⟩
  · intro hne
    simp only [Media.realSpeedTimerCallback, ne_eq, hne, not_false_eq_true, if_true]
  · intro he
    simp [Media.realSpeedTimerCallback, he]

/-- Witness of C23: twelve frames counted over half a second, the clock ticking a
thousand times per second, give a real speed of 24; a firing at the time of the last
one gives zero. -/
theorem realSpeedTimer_effect_witness :
    (Media.realSpeedExample.realSpeedTimerCallback 1000 1500).realSpeed = 24 ∧
    (Media.realSpeedExample.realSpeedTimerCallback 1000 1000).realSpeed = 0 :=
  have h1 := (realSpeedTimer_effect Media.realSpeedExample 1000 1500).1
    (by
      show ((1500 - 1000 : Int) : Rat) / ((1000 : Nat) : Rat) ≠ 0
      norm_num)
  have h2 := (realSpeedTimer_effect Media.realSpeedExample 1000 1000).2.1 rfl
  ⟨h1.trans (by
      show ((12 : Nat) : Rat) / (((1500 - 1000 : Int) : Rat) / ((1000 : Nat) : Rat)) = 24
      norm_num), h2⟩

/-! ## Volume and mute -/

/-- The state after `setVolume` is the given state with the clamped volume stored. -/
theorem setVolume_eq (s : Media) (value : Rat) :
    s.setVolume value = { s with volume := min (max value 0) 1 } := by
  unfold Media.setVolume Media._volumeUpdate
  by_cases h : s.volume = min (max value 0) 1
  · simp only [h, if_true]
    rw [← h]
  · simp only [h, if_false]
    split <;> rfl

/-- The state after `setMute` is the given state with the mute flag stored. -/
theorem setMute_eq (s : Media) (value : Bool) :
    s.setMute value = { s with mute := value } := by
  unfold Media.setMute Media._volumeUpdate
  by_cases h : s.mute = value
  · simp only [h, if_true]
    rw [← h]
  · simp only [h, if_false]
    split <;> rfl

/-- The callback on a state with other volume and mute values returns the same buffer,
and the same state up to these two values. -/
theorem rtAudioCallback_volume_mute (s : Media) (v : Rat) (m : Bool)
    (outputBuffer : List Byte) (k : Nat) (now : Int) :
    ({ s with volume := v, mute := m } : Media)._rtAudioCallback outputBuffer k now =
      (s._rtAudioCallback outputBuffer k now).map
        (fun x => (({ x.1 with volume := v, mute := m } : Media), x.2)) := by
  unfold Media._rtAudioCallback
  cases hr : s.read with
  | none => simp only [hr, Option.map_none']
  | some r =>
    simp only [hr, Option.map_some']
    rfl

/-- C27: the audio output does not depend on volume or mute.  For a state and the state
reached from it through `setVolume` and `setMute`, which differ in the volume and mute
values only, the callback with the same request returns the same output buffer, the
same carryover block, the same accumulators and the same audio queue. -/
theorem rtAudioCallback_ignores_volume (s : Media) (v : Rat) (m : Bool)
    (outputBuffer : List Byte) (k : Nat) (now : Int) :
    (s.setVolume v).setMute m = { s with volume := min (max v 0) 1, mute := m } ∧
    (((s.setVolume v).setMute m)._rtAudioCallback outputBuffer k now).map Prod.snd =
      (s._rtAudioCallback outputBuffer k now).map Prod.snd ∧
    (((s.setVolume v).setMute m)._rtAudioCallback outputBuffer k now).map
        (fun x => (x.1.audioData, x.1.audioDataOffset, x.1.audioDataTotal,
          x.1.audioDataTimeOffset, x.1.read)) =
      (s._rtAudioCallback outputBuffer k now).map
        (fun x => (x.1.audioData, x.1.audioDataOffset, x.1.audioDataTotal,
          x.1.audioDataTimeOffset, x.1.read)) ∧
    (∀ (v2 : Rat) (m2 : Bool),
      (({ s with volume := v2, mute := m2 } : Media)._rtAudioCallback outputBuffer k now).map
          Prod.snd = (s._rtAudioCallback outputBuffer k now).map Prod.snd) := by
  have he : (s.setVolume v).setMute m = { s with volume := min (max v 0) 1, mute := m } := by
    rw [setMute_eq, setVolume_eq]
  refine ⟨he, ?_, ?_, ?_⟩
  · rw [he, rtAudioCallback_volume_mute]
    cases s._rtAudioCallback outputBuffer k now <;> rfl
  · rw [he, rtAudioCallback_volume_mute]
    cases s._rtAudioCallback outputBuffer k now <;> rfl
  · intro v2 m2
    rw [rtAudioCallback_volume_mute]
    cases s._rtAudioCallback outputBuffer k now <;> rfl

/-! ## Stepping forward and back -/

/-- C28: with in/out points disabled, a sequence of `N ≥ 1` frames and the current
frame in `[0, N-1]`, `nextFrame(1)` followed by `prevFrame(1)` leaves the current
frame where it was, and so does `prevFrame(1)` followed by `nextFrame(1)`, also across
the wrap at `0` and `N-1`. -/
theorem nextFrame_prevFrame (s : Media) (N : Nat) (now1 now2 : Int) (hN : 1 ≤ N)
    (hsize : s.sequence.getSize = N) (hdis : s.inOutPointsEnabled = false)
    (h0 : 0 ≤ s.currentFrame) (h1 : s.currentFrame ≤ (N : Int) - 1) :
    ((s.nextFrame 1 now1).prevFrame 1 now2).currentFrame = s.currentFrame ∧
    ((s.prevFrame 1 now1).nextFrame 1 now2).currentFrame = s.currentFrame := by
  have hend : s.rangeEnd = (N : Int) - 1 := by simp [Media.rangeEnd, hdis, hsize]
  have hN0 : (1 : Int) ≤ N := by exact_mod_cast hN
  have hn : (s.nextFrame 1 now1).rangeEnd = (N : Int) - 1 := by
    unfold Media.nextFrame
    rw [(setCurrentFrame_proj s _ now1).2.2.1, hend]
  have hp : (s.prevFrame 1 now1).rangeEnd = (N : Int) - 1 := by
    unfold Media.prevFrame
    rw [(setCurrentFrame_proj s _ now1).2.2.1, hend]
  have hnc : (s.nextFrame 1 now1).currentFrame = s.wrapFrame (s.currentFrame + 1) := by
    unfold Media.nextFrame
    rw [setCurrentFrame_currentFrame]
    rfl
  have hpc : (s.prevFrame 1 now1).currentFrame = s.wrapFrame (s.currentFrame - 1) := by
    unfold Media.prevFrame
    rw [setCurrentFrame_currentFrame]
    rfl
  constructor
  · have e : ((s.nextFrame 1 now1).prevFrame 1 now2).currentFrame =
        (s.nextFrame 1 now1).wrapFrame ((s.nextFrame 1 now1).currentFrame - 1) := by
      unfold Media.prevFrame
      rw [setCurrentFrame_currentFrame]
      rfl
    rw [e, hnc]
    simp only [Media.wrapFrame, hn, hend]
    split_ifs <;> omega
  · have e : ((s.prevFrame 1 now1).nextFrame 1 now2).currentFrame =
        (s.prevFrame 1 now1).wrapFrame ((s.prevFrame 1 now1).currentFrame + 1) := by
      unfold Media.nextFrame
      rw [setCurrentFrame_currentFrame]
      rfl
    rw [e, hpc]
    simp only [Media.wrapFrame, hp, hend]
    split_ifs <;> omega

/-- Witness of C28: at the last frame of ten, a step forward wraps to frame 0 and the
step back returns to frame 9; at frame 0 the step back wraps to 9 and the step forward
returns to 0. -/
theorem nextFrame_prevFrame_witness :
    (((({ Media.tenFrames PlaybackMode.Loop with currentFrame := 9 } : Media).nextFrame 1
        1).prevFrame 1 2).currentFrame = 9) ∧
    (((({ Media.tenFrames PlaybackMode.Loop with currentFrame := 0 } : Media).prevFrame 1
        1).nextFrame 1 2).currentFrame = 0) :=
  ⟨(nextFrame_prevFrame ({ Media.tenFrames PlaybackMode.Loop with currentFrame := 9 } : Media)
      10 1 2 (by decide) (by decide) rfl (by decide) (by decide)).1,
    (nextFrame_prevFrame ({ Media.tenFrames PlaybackMode.Loop with currentFrame := 0 } : Media)
      10 1 2 (by decide) (by decide) rfl (by decide) (by decide)).2⟩

/-! ## Frame range invariant -/

/-- What `setPlayback` does to the fields of the frame range invariant. -/
theorem setPlayback_frame (s : Media) (p : Playback) (now : Int) :
    (s.setPlayback p now).inOutPointsEnabled = s.inOutPointsEnabled ∧
    (s.setPlayback p now).sequence = s.sequence ∧
    (s.setPlayback p now).currentFrame = s.currentFrame ∧
    ((s.setPlayback p now).frameOffset = s.frameOffset ∨
      (s.setPlayback p now).frameOffset = s.currentFrame) := by
  unfold Media.setPlayback
  split
  · exact ⟨rfl, rfl, rfl, Or.inl rfl⟩
  · unfold Media._playbackUpdate
    cases p <;> exact ⟨rfl, rfl, rfl, Or.inr rfl⟩

/-- What `setCurrentFrame` does to the fields of the frame range invariant. -/
theorem setCurrentFrame_frame (s : Media) (v : Int) (now : Int) :
    (s.setCurrentFrame v now).inOutPointsEnabled = s.inOutPointsEnabled ∧
    (s.setCurrentFrame v now).sequence = s.sequence ∧
    (s.setCurrentFrame v now).currentFrame = s.wrapFrame v ∧
    ((s.setCurrentFrame v now).frameOffset = s.frameOffset ∨
      (s.setCurrentFrame v now).frameOffset = s.wrapFrame v) := by
  refine ⟨?_, ?_, setCurrentFrame_currentFrame s v now, ?_⟩
  all_goals
    unfold Media.setCurrentFrame
    by_cases h : s.currentFrame = s.wrapFrame v
    · simp only [h, if_true, true_or]
    · have hp := setPlayback_frame { s with currentFrame := s.wrapFrame v } Playback.Stop now
      simp only [h, if_false, seek_inOutPointsEnabled, seek_sequence, seek_frameOffset,
        hp.1, hp.2.1, hp.2.2.1, or_true]

/-- The frame range invariant is kept by `setPlayback`. -/
theorem frameInvariant_setPlayback (s : Media) (N : Nat) (p : Playback) (now : Int)
    (h : s.frameInvariant N) : (s.setPlayback p now).frameInvariant N := by
  obtain ⟨h1, h2, h3, h4, h5, h6⟩ := h
  obtain ⟨p1, p2, p3, p4⟩ := setPlayback_frame s p now
  refine ⟨by rw [p1, h1], by rw [p2, h2], by rw [p3]; exact h3, by rw [p3]; exact h4, ?_, ?_⟩
  · rcases p4 with e | e <;> rw [e] <;> assumption
  · rcases p4 with e | e <;> rw [e] <;> assumption

/-- The frame range invariant is kept by `setCurrentFrame`, whatever frame is requested. -/
theorem frameInvariant_setCurrentFrame (s : Media) (N : Nat) (v : Int) (now : Int)
    (hN : 1 ≤ N) (h : s.frameInvariant N) : (s.setCurrentFrame v now).frameInvariant N := by
  obtain ⟨h1, h2, h3, h4, h5, h6⟩ := h
  obtain ⟨p1, p2, p3, p4⟩ := setCurrentFrame_frame s v now
  have hend : s.rangeEnd = (N : Int) - 1 := by simp [Media.rangeEnd, h1, h2]
  have hN0 : (1 : Int) ≤ N := by exact_mod_cast hN
  have hw : 0 ≤ s.wrapFrame v ∧ s.wrapFrame v ≤ (N : Int) - 1 := by
    simp only [Media.wrapFrame, hend]
    constructor <;> split_ifs <;> omega
  refine ⟨by rw [p1, h1], by rw [p2, h2], by rw [p3]; exact hw.1, by rw [p3]; exact hw.2,
    ?_, ?_⟩
  · rcases p4 with e | e <;> rw [e]
    · exact h5
    · exact hw.1
  · rcases p4 with e | e <;> rw [e]
    · exact h6
    · exact hw.2

/-- The frame range invariant is kept by a wall clock tick with a non-negative number
of elapsed frames. -/
theorem frameInvariant_playbackTick (s : Media) (N : Nat) (clk : ClockSample) (now : Int)
    (hN : 1 ≤ N) (h : s.frameInvariant N) (he : 0 ≤ clk.elapsed)
    (hna : s.playback = Playback.Forward → s._hasAudio = false) :
    (s._playbackTick clk now).frameInvariant N := by
  have hN0 : (1 : Int) ≤ N := by exact_mod_cast hN
  have hstart : s.rangeStart = 0 := by simp [Media.rangeStart, h.1]
  have hend : s.rangeEnd = (N : Int) - 1 := by simp [Media.rangeEnd, h.1, h.2.1]
  have hstop := frameInvariant_setPlayback s N Playback.Stop now h
  have hset : ∀ f, ((s.setPlayback Playback.Stop now).setCurrentFrame f now).frameInvariant N :=
    fun f => frameInvariant_setCurrentFrame _ N f now hN hstop
  have hplay : ∀ f p, (((s.setPlayback Playback.Stop now).setCurrentFrame f now).setPlayback
      p now).frameInvariant N := fun f p => frameInvariant_setPlayback _ N p now (hset f)
  have hb1 : (s.boundary now).1.frameInvariant N := by
    unfold Media.boundary
    cases hm : s.playbackMode <;> simp only [hset, hplay]
  have hb2 : s.playback ≠ Playback.Stop →
      0 ≤ (s.boundary now).2 ∧ (s.boundary now).2 ≤ (N : Int) - 1 := by
    intro hp
    unfold Media.boundary
    cases hm : s.playbackMode <;> cases hpb : s.playback <;>
      first
        | exact absurd hpb hp
        | (simp only [hstart, hend]; omega)
  obtain ⟨h1, h2, h3, h4, h5, h6⟩ := h
  unfold Media._playbackTick
  cases hpb : s.playback with
  | Stop => exact ⟨h1, h2, h3, h4, h5, h6⟩
  | Forward =>
    have hcf : s.clockFrame Playback.Forward clk = s.frameOffset + clk.elapsed := by
      simp [Media.clockFrame, hna hpb]
    simp only [hcf, hstart, hend]
    split
    · obtain ⟨b1, b2, _, _, b5, b6⟩ := hb1
      have hb := hb2 (by rw [hpb]; decide)
      exact ⟨b1, b2, hb.1, hb.2, b5, b6⟩
    · next hnb =>
        simp only [ge_iff_le, true_and, false_and, or_false, reduceCtorEq] at hnb
        exact ⟨h1, h2, by show 0 ≤ s.frameOffset + clk.elapsed; omega,
          by show s.frameOffset + clk.elapsed ≤ (N : Int) - 1; omega, h5, h6⟩
  | Reverse =>
    have hcf : s.clockFrame Playback.Reverse clk = s.frameOffset - clk.elapsed := by
      simp [Media.clockFrame]
    simp only [hcf, hstart, hend]
    split
    · obtain ⟨b1, b2, _, _, b5, b6⟩ := hb1
      have hb := hb2 (by rw [hpb]; decide)
      exact ⟨b1, b2, hb.1, hb.2, b5, b6⟩
    · next hnb =>
        simp only [true_and, false_and, false_or, reduceCtorEq] at hnb
        exact ⟨h1, h2, by show 0 ≤ s.frameOffset - clk.elapsed; omega,
          by show s.frameOffset - clk.elapsed ≤ (N : Int) - 1; omega, h5, h6⟩

/-- C25: with in/out points disabled and a sequence of `N ≥ 1` frames, the invariant
"the current frame and `frameOffset` lie in `[0, N-1]`" is kept by `setCurrentFrame`,
`nextFrame`, `prevFrame`, `start`, `end`, `setPlayback`, `setPlaybackMode`, `setSpeed`
and by a wall clock tick with a non-negative number of elapsed frames, in every
playback state and mode; each of them also keeps the flag and the sequence. -/
theorem frameInvariant_preserved (s : Media) (N : Nat) (now : Int) (hN : 1 ≤ N)
    (h : s.frameInvariant N) :
    (∀ v : Int, (s.setCurrentFrame v now).frameInvariant N) ∧
    (∀ k : Nat, (s.nextFrame k now).frameInvariant N) ∧
    (∀ k : Nat, (s.prevFrame k now).frameInvariant N) ∧
    (s.start now).frameInvariant N ∧
    (s.end_ now).frameInvariant N ∧
    (∀ p : Playback, (s.setPlayback p now).frameInvariant N) ∧
    (∀ m : PlaybackMode, (s.setPlaybackMode m).frameInvariant N) ∧
    (∀ v : Speed, (s.setSpeed v now).frameInvariant N) ∧
    (∀ clk : ClockSample, 0 ≤ clk.elapsed →
      (s.playback = Playback.Forward → s._hasAudio = false) →
      (s._playbackTick clk now).frameInvariant N) := by
  refine ⟨fun v => frameInvariant_setCurrentFrame s N v now hN h,
    fun k => frameInvariant_setCurrentFrame s N _ now hN h,
    fun k => frameInvariant_setCurrentFrame s N _ now hN h,
    frameInvariant_setCurrentFrame s N _ now hN h,
    frameInvariant_setCurrentFrame s N _ now hN h,
    fun p => frameInvariant_setPlayback s N p now h,
    fun m => h, ?_,
    fun clk he hna => frameInvariant_playbackTick s N clk now hN h he hna⟩
  intro v
  obtain ⟨h1, h2, h3, h4, h5, h6⟩ := h
  unfold Media.setSpeed
  split
  · exact ⟨h1, h2, h3, h4, h5, h6⟩
  · exact ⟨h1, h2, h3, h4, h3, h4⟩

/-- Witness of C25: the ten frame example in `PingPong` mode, playing forward at frame
8 from frame offset 0, satisfies the invariant and keeps it across a step of five
frames forward and across a tick twelve frames past the frame offset. -/
theorem frameInvariant_preserved_witness :
    ((Media.tenFrames PlaybackMode.PingPong).nextFrame 5 1).frameInvariant 10 ∧
    ((Media.tenFrames PlaybackMode.PingPong)._playbackTick ⟨0, 12⟩ 1).frameInvariant 10 :=
  have h := frameInvariant_preserved (Media.tenFrames PlaybackMode.PingPong) 10 1
    (by decide) (by decide)
  ⟨h.2.1 5, h.2.2.2.2.2.2.2.2 ⟨0, 12⟩ (by decide) (fun _ => rfl)⟩

/-! ## Carryover invariant and bounds of the callback -/

/-- Under the carryover invariant the copy loops of the callback write `min k A` sample
frames, `A` being the frames available on entry. -/
theorem audioCopy_p (s : Media) (r : IRead) (outputBuffer : List Byte) (k : Nat)
    (hr : s.read = some r) (hok : carryoverOK s.audioData s.audioDataOffset) :
    (s.audioCopy r outputBuffer k).p = min k s.available * s.sampleByteCount := by
  have hcc := copyCarryover_count s.sampleByteCount
    { audioData := s.audioData, audioDataOffset := s.audioDataOffset,
      audioDataTotal := s.audioDataTotal, buffer := outputBuffer, p := 0,
      outputSampleCount := k } hok
  simp only at hcc
  obtain ⟨_, c2, c3, c4, c5⟩ := hcc
  have hfc := copyFrames_count s.sampleByteCount k r.audioQueue
    (carrySampleCount s.audioData s.audioDataOffset)
    (copyCarryover s.sampleByteCount
      { audioData := s.audioData, audioDataOffset := s.audioDataOffset,
        audioDataTotal := s.audioDataTotal, buffer := outputBuffer, p := 0,
        outputSampleCount := k }) _ _ rfl
    (by rw [c3, carrySampleCount_eq _ _ hok]; omega)
    (by rw [c3, c4]; omega)
    c5
  obtain ⟨_, f2, _, _, _⟩ := hfc
  rw [c2, c3, Nat.zero_add, ← Nat.add_mul] at f2
  have hsum : min (tailCount s.audioData s.audioDataOffset) k +
      min (k - min (tailCount s.audioData s.audioDataOffset) k) (queueCount r.audioQueue) =
        min k s.available := by
    simp only [Media.available, hr]
    omega
  rw [hsum] at f2
  exact f2

/-- C26: the carryover invariant "a carryover block has `audioDataOffset` at most its
sample count" holds in the initial state and after `_init`, holds after `_seek` and
after `_playbackUpdate`, and is kept by the callback.  Under it the callback returns
and its unsigned subtractions do not wrap: the carryover offset is at most the sample
count of the block, the bytes copied are at most `k * sampleByteCount`, and the bytes
copied plus the bytes zero filled are `k * sampleByteCount`. -/
theorem carryover_invariant :
    carryoverOK Media.initial.audioData Media.initial.audioDataOffset ∧
    (∀ (created : Bool) (env : OpenEnv) (now : Int),
      carryoverOK (Media._init created env now).audioData
        (Media._init created env now).audioDataOffset) ∧
    (∀ (s : Media) (f : Int) (now : Int),
      carryoverOK (s._seek f now).audioData (s._seek f now).audioDataOffset) ∧
    (∀ (s : Media) (now : Int),
      carryoverOK (s._playbackUpdate now).audioData (s._playbackUpdate now).audioDataOffset) ∧
    (∀ (s : Media) (r : IRead) (outputBuffer : List Byte) (k : Nat) (now : Int),
      s.read = some r → carryoverOK s.audioData s.audioDataOffset →
      (∃ t out, s._rtAudioCallback outputBuffer k now = some (t, out) ∧
        carryoverOK t.audioData t.audioDataOffset) ∧
      (∀ d, s.audioData = some d →
        s.audioDataOffset ≤ d.sampleCount ∧
        subSizeT d.sampleCount s.audioDataOffset = d.sampleCount - s.audioDataOffset) ∧
      (s.audioCopy r outputBuffer k).p ≤ k * s.sampleByteCount ∧
      subSizeT (k * s.sampleByteCount) (s.audioCopy r outputBuffer k).p =
        k * s.sampleByteCount - (s.audioCopy r outputBuffer k).p ∧
      (s.audioCopy r outputBuffer k).p +
        subSizeT (k * s.sampleByteCount) (s.audioCopy r outputBuffer k).p =
          k * s.sampleByteCount) := by
  refine ⟨trivial, ?_, fun _ _ _ => trivial, ?_, ?_⟩
  · intro created env now
    have h : (Media._init created env now).audioData = none := rfl
    rw [h]
    trivial
  · intro s now
    have h : (s._playbackUpdate now).audioData = none := by
      unfold Media._playbackUpdate
      cases s.playback <;> rfl
    rw [h]
    trivial
  · intro s r outputBuffer k now hr hok
    obtain ⟨t, out, h1, _, _, h4, _⟩ := rtAudioCallback_count s r outputBuffer k now hr hok
    have hp := audioCopy_p s r outputBuffer k hr hok
    have hle : (s.audioCopy r outputBuffer k).p ≤ k * s.sampleByteCount := by
      rw [hp]
      exact Nat.mul_le_mul_right _ (by omega)
    have hsub : subSizeT (k * s.sampleByteCount) (s.audioCopy r outputBuffer k).p =
        k * s.sampleByteCount - (s.audioCopy r outputBuffer k).p := by
      simp only [subSizeT, hle, if_true]
    refine ⟨⟨t, out, h1, h4⟩, ?_, hle, hsub, ?_⟩
    · intro d hd
      have hle2 : s.audioDataOffset ≤ d.sampleCount := by
        rw [hd] at hok
        exact hok
      exact ⟨hle2, by simp only [subSizeT, hle2, if_true]⟩
    · rw [hsub]
      omega

/-- Witness of C26: the audio example state satisfies the invariant; a request of 6
frames of 4 bytes copies 20 bytes and zero fills the other 4. -/
theorem carryover_invariant_witness :
    (Media.audioExample.audioCopy
        { videoQueue := []
          audioQueue :=
            [ { audio :=
                  { info := { channelCount := 2, type := AudioType.S16, sampleRate := 48000 }
                    sampleCount := 2
                    data := [21, 22, 23, 24, 25, 26, 27, 28] } },
              { audio :=
                  { info := { channelCount := 2, type := AudioType.S16, sampleRate := 48000 }
                    sampleCount := 1
                    data := [31, 32, 33, 34] } } ]
          seeks := [] } (List.replicate 24 9) 6).p = 20 ∧
    (Media.audioExample.audioCopy
        { videoQueue := []
          audioQueue :=
            [ { audio :=
                  { info := { channelCount := 2, type := AudioType.S16, sampleRate := 48000 }
                    sampleCount := 2
                    data := [21, 22, 23, 24, 25, 26, 27, 28] } },
              { audio :=
                  { info := { channelCount := 2, type := AudioType.S16, sampleRate := 48000 }
                    sampleCount := 1
                    data := [31, 32, 33, 34] } } ]
          seeks := [] } (List.replicate 24 9) 6).p ≤ 6 * Media.audioExample.sampleByteCount :=
  ⟨by decide,
    (carryover_invariant.2.2.2.2 Media.audioExample
      { videoQueue := []
        audioQueue :=
          [ { audio :=
                { info := { channelCount := 2, type := AudioType.S16, sampleRate := 48000 }
                  sampleCount := 2
                  data := [21, 22, 23, 24, 25, 26, 27, 28] } },
            { audio :=
                { info := { channelCount := 2, type := AudioType.S16, sampleRate := 48000 }
                  sampleCount := 1
                  data := [31, 32, 33, 34] } } ]
        seeks := [] } (List.replicate 24 9) 6 0 rfl (by decide)).2.2.1⟩

/-! ## Planar audio helpers -/

/-- A store keeps the length of the output array. -/
theorem storeAt_length {α : Type} (out : List α) (j : Nat) (x : Option α) :
    (storeAt out j x).length = out.length := by
  cases x <;> simp [storeAt]

/-- A store of an element that was read is a list update. -/
theorem storeAt_some {α : Type} (out : List α) (j : Nat) (v : α) :
    storeAt out j (some v) = out.set j v := rfl

/-- Element `j` of the output array after the inner loop has run `n` times for the
outer index `a`. -/
theorem innerLoop_getElem {α : Type} (value : List α) (a B : Nat) (dst src : Nat → Nat → Nat)
    (da db : Nat → Nat) (hdec : ∀ b, b < B → da (dst a b) = a ∧ db (dst a b) = b)
    (hread : ∀ b, b < B → src a b < value.length) :
    ∀ (n : Nat), n ≤ B → ∀ (out : List α) (j : Nat),
      ((List.range n).foldl (fun out b => storeAt out (dst a b) value[src a b]?) out).length
        = out.length ∧
      ((List.range n).foldl (fun out b => storeAt out (dst a b) value[src a b]?) out)[j]? =
        if j < out.length ∧ da j = a ∧ db j < n ∧ dst a (db j) = j then
          value[src a (db j)]?
        else out[j]? := by
  intro n
  induction n with
  | zero =>
    intro _ out j
    simp
  | succ n ih =>
    intro hn out j
    have hi := ih (by omega) out
    rw [List.range_succ, List.foldl_append]
    simp only [List.foldl_cons, List.foldl_nil]
    have hlt : src a n < value.length := hread n (by omega)
    obtain ⟨x, hx⟩ : ∃ x, value[src a n]? = some x :=
      ⟨value[src a n], List.getElem?_eq_getElem hlt⟩
    rw [hx, storeAt_some]
    refine ⟨by rw [List.length_set]; exact (hi j).1, ?_⟩
    rw [List.getElem?_set, (hi j).1, (hi j).2]
    have hd := hdec n (by omega)
    by_cases hj : dst a n = j
    · subst hj
      rw [if_pos rfl]
      by_cases hlen : dst a n < out.length
      · rw [if_pos hlen, if_pos ⟨hlen, hd.1, by rw [hd.2]; omega, by rw [hd.2]⟩, hd.2, hx]
      · rw [if_neg hlen, if_neg (fun h => hlen h.1)]
        exact (List.getElem?_eq_none (by omega)).symm
    · rw [if_neg hj]
      by_cases hc : j < out.length ∧ da j = a ∧ db j < n ∧ dst a (db j) = j
      · rw [if_pos hc, if_pos ⟨hc.1, hc.2.1, by omega, hc.2.2.2⟩]
      · rw [if_neg hc, if_neg]
        rintro ⟨h1, h2, h3, h4⟩
        by_cases h5 : db j = n
        · rw [h5] at h4
          exact hj h4
        · exact hc ⟨h1, h2, by omega, h4⟩

/-- Element `j` of the output array after the two nested loops. -/
theorem copyLoops_getElem {α : Type} (value : List α) (A B : Nat) (dst src : Nat → Nat → Nat)
    (da db : Nat → Nat)
    (hdec : ∀ a b, a < A → b < B → da (dst a b) = a ∧ db (dst a b) = b)
    (hread : ∀ a b, a < A → b < B → src a b < value.length) :
    ∀ (m : Nat), m ≤ A → ∀ (out : List α) (j : Nat),
      ((List.range m).foldl
          (fun out a =>
            (List.range B).foldl (fun out b => storeAt out (dst a b) value[src a b]?) out)
          out).length = out.length ∧
      ((List.range m).foldl
          (fun out a =>
            (List.range B).foldl (fun out b => storeAt out (dst a b) value[src a b]?) out)
          out)[j]? =
        if j < out.length ∧ da j < m ∧ db j < B ∧ dst (da j) (db j) = j then
          value[src (da j) (db j)]?
        else out[j]? := by
  intro m
  induction m with
  | zero =>
    intro _ out j
    simp
  | succ m ih =>
    intro hm out j
    have hi := ih (by omega) out
    rw [List.range_succ, List.foldl_append]
    simp only [List.foldl_cons, List.foldl_nil]
    have hin := innerLoop_getElem value m B dst src da db
      (fun b hb => hdec m b (by omega) hb) (fun b hb => hread m b (by omega) hb) B le_rfl
      ((List.range m).foldl
        (fun out a =>
          (List.range B).foldl (fun out b => storeAt out (dst a b) value[src a b]?) out)
        out) j
    refine ⟨by rw [hin.1]; exact (hi j).1, ?_⟩
    rw [hin.2, (hi j).1, (hi j).2]
    by_cases hc : j < out.length ∧ da j = m ∧ db j < B ∧ dst m (db j) = j
    · rw [if_pos hc, if_pos ⟨hc.1, by omega, hc.2.2.1, by rw [hc.2.1]; exact hc.2.2.2⟩, hc.2.1]
    · rw [if_neg hc]
      by_cases hc2 : j < out.length ∧ da j < m ∧ db j < B ∧ dst (da j) (db j) = j
      · rw [if_pos hc2, if_pos ⟨hc2.1, by omega, hc2.2.2.1, hc2.2.2.2⟩]
      · rw [if_neg hc2, if_neg]
        rintro ⟨h1, h2, h3, h4⟩
        by_cases h5 : da j = m
        · exact hc ⟨h1, h5, h3, by rw [← h5]; exact h4⟩
        · exact hc2 ⟨h1, by omega, h3, h4⟩

/-- Index arithmetic of the planar layouts: an interleaved index `c + i * C` with
`c < C` and `i < P` lies below `P * C` and decodes to `c` and `i`. -/
theorem interleaved_index (C P c i : Nat) (hc : c < C) (hi : i < P) :
    c + i * C < P * C ∧ (c + i * C) % C = c ∧ (c + i * C) / C = i := by
  have h1 : (i + 1) * C ≤ P * C := Nat.mul_le_mul_right _ hi
  have h2 : (i + 1) * C = i * C + C := by ring
  refine ⟨by omega, ?_, ?_⟩
  · rw [Nat.add_mul_mod_self_right, Nat.mod_eq_of_lt hc]
  · rw [Nat.add_mul_div_right _ _ (by omega), Nat.div_eq_of_lt hc, Nat.zero_add]

/-- Index arithmetic of the planar layouts: a planar index `c * P + i` with `c < C` and
`i < P` lies below `P * C` and decodes to `c` and `i`. -/
theorem planar_index (C P c i : Nat) (hc : c < C) (hi : i < P) :
    c * P + i < P * C ∧ (c * P + i) / P = c ∧ (c * P + i) % P = i := by
  have h1 : (c + 1) * P ≤ C * P := Nat.mul_le_mul_right _ hc
  have h2 : (c + 1) * P = c * P + P := by ring
  have h3 : C * P = P * C := Nat.mul_comm _ _
  refine ⟨by omega, ?_, ?_⟩
  · rw [Nat.add_comm, Nat.add_mul_div_right _ _ (by omega), Nat.div_eq_of_lt hi, Nat.zero_add]
  · rw [Nat.add_comm, Nat.add_mul_mod_self_right, Nat.mod_eq_of_lt hi]

/-- An index below `P * C` splits into a channel and a plane index, in either layout. -/
theorem index_split (C P j : Nat) (hj : j < P * C) :
    j % C < C ∧ j / C < P ∧ j % C + j / C * C = j ∧
    j / P < C ∧ j % P < P ∧ j / P * P + j % P = j := by
  have hC : 0 < C := by
    rcases Nat.eq_zero_or_pos C with h | h
    · rw [h] at hj; omega
    · exact h
  have hP : 0 < P := by
    rcases Nat.eq_zero_or_pos P with h | h
    · rw [h] at hj; omega
    · exact h
  refine ⟨Nat.mod_lt _ hC, ?_, ?_, ?_, Nat.mod_lt _ hP, ?_⟩
  · exact Nat.div_lt_of_lt_mul (by rw [Nat.mul_comm]; exact hj)
  · rw [Nat.mul_comm]; exact Nat.mod_add_div j C
  · exact Nat.div_lt_of_lt_mul hj
  · rw [Nat.mul_comm, Nat.add_comm]; exact Nat.mod_add_div j P

/-- Elements of the interleaved array: for an input of `P * C` samples and an output
array of the same length, element `j` of the result is element `(j % C) * P + j / C`
of the input. -/
theorem planarInterleave_getElem {α : Type} (value out : List α) (C P : Nat) (hC : 0 < C)
    (hv : value.length = P * C) (ho : out.length = P * C) (j : Nat) :
    (_planarInterleave value out C (P * C)).length = P * C ∧
    (_planarInterleave value out C (P * C))[j]? =
      if j < P * C then value[j % C * P + j / C]? else none := by
  have hdiv : P * C / C = P := Nat.mul_div_cancel _ hC
  have h := copyLoops_getElem value C P (fun c i => c + i * C) (fun c i => c * P + i)
    (fun j => j % C) (fun j => j / C)
    (fun c i hc hi => (interleaved_index C P c i hc hi).2)
    (fun c i hc hi => by rw [hv]; exact (planar_index C P c i hc hi).1)
    C le_rfl out j
  unfold _planarInterleave
  simp only [hdiv]
  refine ⟨by rw [h.1, ho], ?_⟩
  rw [h.2, ho]
  by_cases hj : j < P * C
  · have hs := index_split C P j hj
    rw [if_pos ⟨hj, hs.1, hs.2.1, hs.2.2.1⟩, if_pos hj]
  · rw [if_neg (fun hh => hj hh.1), if_neg hj]
    exact List.getElem?_eq_none (by omega)

/-- Elements of the deinterleaved array: for an input of `P * C` samples and an output
array of the same length, element `k` of the result is element `k / P + (k % P) * C`
of the input. -/
theorem planarDeinterleave_getElem {α : Type} (value out : List α) (C P : Nat) (hC : 0 < C)
    (hv : value.length = P * C) (ho : out.length = P * C) (k : Nat) :
    (_planarDeinterleave value out C (P * C)).length = P * C ∧
    (_planarDeinterleave value out C (P * C))[k]? =
      if k < P * C then value[k / P + k % P * C]? else none := by
  have hdiv : P * C / C = P := Nat.mul_div_cancel _ hC
  have h := copyLoops_getElem value C P (fun c i => c * P + i) (fun c i => c + i * C)
    (fun k => k / P) (fun k => k % P)
    (fun c i hc hi => (planar_index C P c i hc hi).2)
    (fun c i hc hi => by rw [hv]; exact (interleaved_index C P c i hc hi).1)
    C le_rfl out k
  unfold _planarDeinterleave
  simp only [hdiv]
  refine ⟨by rw [h.1, ho], ?_⟩
  rw [h.2, ho]
  by_cases hk : k < P * C
  · have hs := index_split C P k hk
    rw [if_pos ⟨hk, hs.2.2.2.1, hs.2.2.2.2.1, hs.2.2.2.2.2⟩, if_pos hk]
  · rw [if_neg (fun hh => hk hh.1), if_neg hk]
    exact List.getElem?_eq_none (by omega)

/-- Deinterleaving the interleaved array gives the array back. -/
theorem planarDeinterleave_planarInterleave {α : Type} (a out1 out2 : List α) (C P : Nat)
    (hC : 0 < C) (ha : a.length = P * C) (h1 : out1.length = P * C)
    (h2 : out2.length = P * C) :
    _planarDeinterleave (_planarInterleave a out1 C (P * C)) out2 C (P * C) = a := by
  apply List.ext_getElem?
  intro k
  have hi := fun j => planarInterleave_getElem a out1 C P hC ha h1 j
  rw [(planarDeinterleave_getElem _ out2 C P hC (hi 0).1 h2 k).2]
  by_cases hk : k < P * C
  · have hs := index_split C P k hk
    have hx := interleaved_index C P (k / P) (k % P) hs.2.2.2.1 hs.2.2.2.2.1
    rw [if_pos hk, (hi _).2, if_pos hx.1, hx.2.1, hx.2.2, hs.2.2.2.2.2]
  · rw [if_neg hk]
    exact (List.getElem?_eq_none (by omega)).symm

/-- Interleaving the deinterleaved array gives the array back. -/
theorem planarInterleave_planarDeinterleave {α : Type} (a out1 out2 : List α) (C P : Nat)
    (hC : 0 < C) (ha : a.length = P * C) (h1 : out1.length = P * C)
    (h2 : out2.length = P * C) :
    _planarInterleave (_planarDeinterleave a out1 C (P * C)) out2 C (P * C) = a := by
  apply List.ext_getElem?
  intro j
  have hd := fun k => planarDeinterleave_getElem a out1 C P hC ha h1 k
  rw [(planarInterleave_getElem _ out2 C P hC (hd 0).1 h2 j).2]
  by_cases hj : j < P * C
  · have hs := index_split C P j hj
    have hx := planar_index C P (j % C) (j / C) hs.1 hs.2.1
    rw [if_pos hj, (hd _).2, if_pos hx.1, hx.2.1, hx.2.2, hs.2.2.1]
  · rw [if_neg hj]
    exact (List.getElem?_eq_none (by omega)).symm

/-- The map from interleaved to planar indices below `P * C` is a bijection, with the
map from planar to interleaved indices as its inverse. -/
theorem planarPerm_exists (C P : Nat) :
    ∃ σ : Equiv.Perm (Fin (P * C)),
      (∀ j, (σ j).val = j.val % C * P + j.val / C) ∧
      (∀ k, (σ.symm k).val = k.val / P + k.val % P * C) :=
  ⟨{ toFun := fun j =>
        ⟨j.val % C * P + j.val / C,
          (planar_index C P (j.val % C) (j.val / C) (index_split C P j.val j.isLt).1
            (index_split C P j.val j.isLt).2.1).1⟩,
      invFun := fun k =>
        ⟨k.val / P + k.val % P * C,
          (interleaved_index C P (k.val / P) (k.val % P)
            (index_split C P k.val k.isLt).2.2.2.1
            (index_split C P k.val k.isLt).2.2.2.2.1).1⟩,
      left_inv := fun j => by
        have hs := index_split C P j.val j.isLt
        have hx := planar_index C P (j.val % C) (j.val / C) hs.1 hs.2.1
        apply Fin.ext
        show (j.val % C * P + j.val / C) / P + (j.val % C * P + j.val / C) % P * C = j.val
        rw [hx.2.1, hx.2.2, hs.2.2.1],
      right_inv := fun k => by
        have hs := index_split C P k.val k.isLt
        have hx := interleaved_index C P (k.val / P) (k.val % P) hs.2.2.2.1 hs.2.2.2.2.1
        apply Fin.ext
        show (k.val / P + k.val % P * C) % C * P + (k.val / P + k.val % P * C) / C = k.val
        rw [hx.2.1, hx.2.2, hs.2.2.2.2.2] },
    fun _ => rfl, fun _ => rfl⟩

/-- A list whose elements are those of `a` read through a bijection of the indices is
a permutation of `a`. -/
theorem perm_of_reindex {α : Type} (a b : List α) (n : Nat) (σ : Equiv.Perm (Fin n))
    (ha : a.length = n)
    (hb : ∀ j, b[j]? = if h : j < n then a[(σ ⟨j, h⟩).val]? else none) :
    b.Perm a := by
  have e1 : a = List.ofFn (fun k : Fin n => a.get ⟨k.val, by rw [ha]; exact k.isLt⟩) := by
    apply List.ext_getElem?
    intro k
    rw [List.getElem?_ofFn, List.ofFnNthVal]
    by_cases hk : k < n
    · rw [dif_pos hk, List.get_eq_getElem]
      exact List.getElem?_eq_getElem _
    · rw [dif_neg hk]
      exact List.getElem?_eq_none (by omega)
  have e2 : b = List.ofFn
      ((fun k : Fin n => a.get ⟨k.val, by rw [ha]; exact k.isLt⟩) ∘ σ) := by
    apply List.ext_getElem?
    intro j
    rw [hb j, List.getElem?_ofFn, List.ofFnNthVal]
    by_cases hj : j < n
    · rw [dif_pos hj, dif_pos hj, Function.comp_apply, List.get_eq_getElem]
      exact List.getElem?_eq_getElem _
    · rw [dif_neg hj, dif_neg hj]
  rw [e2]
  conv_rhs => rw [e1]
  exact Equiv.Perm.ofFn_comp_perm σ _

/-- C29: for a channel count `C ≥ 1` and an array `a` of `P * C` samples, with output
arrays of the same length, the planar helpers are inverse to each other:
deinterleaving the interleaved array returns `a`, and interleaving the deinterleaved
array returns `a`.  Each output is a permutation of `a`; interleaving stores
`a[c * P + i]` at index `c + i * C` and deinterleaving stores `a[c + i * C]` at index
`c * P + i`, for every channel `c < C` and plane index `i < P`. -/
theorem planar_helpers_inverse {α : Type} (a out1 out2 : List α) (C P : Nat) (hC : 1 ≤ C)
    (ha : a.length = P * C) (h1 : out1.length = a.length) (h2 : out2.length = a.length) :
    _planarDeinterleave (_planarInterleave a out1 C a.length) out2 C a.length = a ∧
    _planarInterleave (_planarDeinterleave a out1 C a.length) out2 C a.length = a ∧
    (_planarInterleave a out1 C a.length).Perm a ∧
    (_planarDeinterleave a out1 C a.length).Perm a ∧
    (∀ c i, c < C → i < P →
      (_planarInterleave a out1 C a.length)[c + i * C]? = a[c * P + i]?) ∧
    (∀ c i, c < C → i < P →
      (_planarDeinterleave a out1 C a.length)[c * P + i]? = a[c + i * C]?) := by
  have hC0 : 0 < C := hC
  rw [ha] at h1 h2
  have hi := fun j => planarInterleave_getElem a out1 C P hC0 ha h1 j
  have hd := fun k => planarDeinterleave_getElem a out1 C P hC0 ha h1 k
  rw [ha]
  obtain ⟨σ, hσ1, hσ2⟩ := planarPerm_exists C P
  refine ⟨planarDeinterleave_planarInterleave a out1 out2 C P hC0 ha h1 h2,
    planarInterleave_planarDeinterleave a out1 out2 C P hC0 ha h1 h2, ?_, ?_, ?_, ?_⟩
  · apply perm_of_reindex a _ (P * C) σ ha
    intro j
    rw [(hi j).2]
    by_cases hj : j < P * C
    · rw [if_pos hj, dif_pos hj, hσ1]
    · rw [if_neg hj, dif_neg hj]
  · apply perm_of_reindex a _ (P * C) σ.symm ha
    intro k
    rw [(hd k).2]
    by_cases hk : k < P * C
    · rw [if_pos hk, dif_pos hk, hσ2]
    · rw [if_neg hk, dif_neg hk]
  · intro c i hc hip
    have hx := interleaved_index C P c i hc hip
    rw [(hi _).2, if_pos hx.1, hx.2.1, hx.2.2]
  · intro c i hc hip
    have hx := planar_index C P c i hc hip
    rw [(hd _).2, if_pos hx.1, hx.2.1, hx.2.2]

/-- Witness of C29: two channels and three samples per plane; the planes `1 2 3` and
`4 5 6` interleave to `1 4 2 5 3 6`, and deinterleaving returns the planes. -/
theorem planar_helpers_inverse_witness :
    _planarInterleave [1, 2, 3, 4, 5, 6] [0, 0, 0, 0, 0, 0] 2 6 = [1, 4, 2, 5, 3, 6] ∧
    _planarDeinterleave
        (_planarInterleave [1, 2, 3, 4, 5, 6] [0, 0, 0, 0, 0, 0] 2
          ([1, 2, 3, 4, 5, 6] : List Nat).length)
        [9, 9, 9, 9, 9, 9] 2 ([1, 2, 3, 4, 5, 6] : List Nat).length = [1, 2, 3, 4, 5, 6] :=
  ⟨by decide,
    (planar_helpers_inverse [1, 2, 3, 4, 5, 6] [0, 0, 0, 0, 0, 0] [9, 9, 9, 9, 9, 9] 2 3
      (by decide) rfl rfl rfl).1⟩

/-! ## Child order -/

/-- Erasing the only occurrence of an object leaves the other children in their order. -/
theorem erase_eq_filter_of_count (l : List ObjectId) (x : ObjectId) (h : l.count x = 1) :
    l.erase x = l.filter (fun y => decide (y ≠ x)) := by
  induction l with
  | nil => simp at h
  | cons y l ih =>
    by_cases hy : y = x
    · subst hy
      have h0 : l.count y = 0 := by
        rw [List.count_cons_self] at h
        omega
      have hn : y ∉ l := List.count_eq_zero.mp h0
      rw [List.erase_cons_head, List.filter_cons_of_neg (by simp)]
      symm
      rw [List.filter_eq_self]
      intro z hz
      have : z ≠ y := fun e => hn (e ▸ hz)
      simpa using this
    · have h1 : l.count x = 1 := by
        rw [List.count_cons_of_ne (fun e => hy e.symm)] at h
        exact h
      rw [List.erase_cons_tail (by simpa using hy), List.filter_cons_of_pos (by simpa using hy),
        ih h1]

/-- C30: when the children list holds the object exactly once, `moveToFront` leaves
the other children in their order followed by the object, and `moveToBack` leaves the
object followed by the other children in their order.  Either list is a permutation of
the original one and holds the object exactly once, and it has no duplicate when the
original list has none. -/
theorem moveToFront_moveToBack (l : List ObjectId) (x : ObjectId) (h : l.count x = 1) :
    IObject.moveToFront l x = l.filter (fun y => decide (y ≠ x)) ++ [x] ∧
    IObject.moveToBack l x = x :: l.filter (fun y => decide (y ≠ x)) ∧
    (IObject.moveToFront l x).Perm l ∧
    (IObject.moveToBack l x).Perm l ∧
    (IObject.moveToFront l x).count x = 1 ∧
    (IObject.moveToBack l x).count x = 1 ∧
    (l.Nodup → (IObject.moveToFront l x).Nodup ∧ (IObject.moveToBack l x).Nodup) ∧
    (IObject.moveToFront l x).filter (fun y => decide (y ≠ x)) =
      l.filter (fun y => decide (y ≠ x)) ∧
    (IObject.moveToBack l x).filter (fun y => decide (y ≠ x)) =
      l.filter (fun y => decide (y ≠ x)) := by
  have he := erase_eq_filter_of_count l x h
  have hmem : x ∈ l := List.count_pos_iff.mp (by omega)
  have hpb : (IObject.moveToBack l x).Perm l := (List.perm_cons_erase hmem).symm
  have hpf : (IObject.moveToFront l x).Perm l := by
    unfold IObject.moveToFront
    exact (List.perm_append_comm.trans (List.perm_cons_erase hmem).symm)
  refine ⟨?_, ?_, hpf, hpb, ?_, ?_, ?_, ?_, ?_⟩
  · unfold IObject.moveToFront
    rw [he]
  · unfold IObject.moveToBack
    rw [he]
  · rw [hpf.count_eq, h]
  · rw [hpb.count_eq, h]
  · intro hnd
    exact ⟨hpf.nodup_iff.mpr hnd, hpb.nodup_iff.mpr hnd⟩
  · unfold IObject.moveToFront
    rw [he, List.filter_append, List.filter_filter]
    simp
  · unfold IObject.moveToBack
    rw [he, List.filter_cons_of_neg (by simp), List.filter_filter]
    simp

/-- Witness of C30: among the children 1, 2, 3, 4 the object 2 moves to the end of the
list with `moveToFront` and to its beginning with `moveToBack`. -/
theorem moveToFront_moveToBack_witness :
    IObject.moveToFront [1, 2, 3, 4] 2 = [1, 3, 4, 2] ∧
    IObject.moveToBack [1, 2, 3, 4] 2 = [2, 1, 3, 4] :=
  have h := moveToFront_moveToBack [1, 2, 3, 4] 2 (by decide)
  ⟨h.1, h.2.1⟩

end djv
